import Mathlib

/-!
# Verification of the mini resume-parser service

Shallow embedding of the two source files of the repository
(`resume_parser.py` and `openai_parser.py`) and proofs settling the
frozen claims C1–C10 about them.

Modelling conventions:
* Python byte strings are `List Nat` (one entry per byte); Python text
  strings are Lean `String` / `List Char`.
* The opaque external libraries (PyMuPDF/`fitz`, `docx2txt`,
  `striprtf`, the OpenAI client) are modelled as oracle functions
  collected in a `Libs` structure; an `Except.error` outcome models the
  library call raising an exception.
* Fallible Python code is modelled with `Option`/`Except`; a Flask
  handler is a total function from a request (plus oracles) to a
  `Response`, with a dedicated constructor `Response.unhandled` for an
  exception escaping the handler.
-/

/-! ## Python string primitives -/

/-- The code points Python treats as whitespace for `str.strip()`,
`str.isspace()` and (in Unicode mode) the regex class `\s`:
ASCII `\t\n\v\f\r`, space, the file/group/record/unit separators
`\x1c`–`\x1f`, NEL `\x85`, NBSP `\xa0`, and the Unicode `Zs`/`Zl`/`Zp`
space characters. -/
def pyWhitespaceCodes : List Nat :=
  [9, 10, 11, 12, 13, 28, 29, 30, 31, 32, 0x85, 0xA0, 0x1680,
   0x2000, 0x2001, 0x2002, 0x2003, 0x2004, 0x2005, 0x2006, 0x2007,
   0x2008, 0x2009, 0x200A, 0x2028, 0x2029, 0x202F, 0x205F, 0x3000]

/-- Python's whitespace test on a single character. -/
def pyIsSpace (c : Char) : Bool := pyWhitespaceCodes.contains c.toNat

/-- Python `str.strip()` on a character list: drop leading and trailing
whitespace. -/
def pyStrip (l : List Char) : List Char :=
  ((l.dropWhile pyIsSpace).reverse.dropWhile pyIsSpace).reverse

/-- Python `str.strip()` on a `String`. -/
def pyStripStr (s : String) : String := ⟨pyStrip s.data⟩

/-- Python `str.lower()` on one character (ASCII case mapping; the
type-tag strings compared against the dispatch table are ASCII, and no
non-ASCII character lowercases to a letter of the supported tags). -/
def pyLowerChar (c : Char) : Char :=
  if 'A' ≤ c ∧ c ≤ 'Z' then Char.ofNat (c.toNat + 32) else c

/-- Python `str.lower()` on a `String`. -/
def pyLowerStr (s : String) : String := ⟨s.data.map pyLowerChar⟩

/-- Contiguous-substring test on character lists. -/
def listInfixOf (needle : List Char) : List Char → Bool
  | [] => needle.isEmpty
  | c :: rest => needle.isPrefixOf (c :: rest) || listInfixOf needle rest

/-- Python `'needle' in haystack` substring test. -/
def strContains (hay needle : String) : Bool :=
  listInfixOf needle.data hay.data

/-! ## The text normalizer `clean_text` (resume_parser.py lines 125–132)

```python
def clean_text(text):
    text = re.sub(r'\s[,.]', ',', text)
    text = re.sub(r'[\n]+', '\n', text)
    text = re.sub(r'[\s]+', ' ', text)
    text = re.sub(r'http[s]?(://)?', '', text)
    text = re.sub(r'[^\x00-\x7F]+', '', text)
    return text.strip()
```
Each `re.sub` pass is modelled by a left-to-right scan with the same
non-overlapping leftmost-match semantics as Python's `re.sub`. -/

/-- Pass 1: `re.sub(r'\s[,.]', ',', text)` — a whitespace character
immediately followed by `,` or `.` is replaced by a single `,`;
scanning resumes after the match. -/
def subSpacePunct : List Char → List Char
  | [] => []
  | [c] => [c]
  | c1 :: c2 :: rest =>
    if pyIsSpace c1 ∧ (c2 = ',' ∨ c2 = '.') then
      ',' :: subSpacePunct rest
    else
      c1 :: subSpacePunct (c2 :: rest)

/-- Pass 2: `re.sub(r'[\n]+', '\n', text)` — each maximal run of
newlines collapses to one newline (scan form: drop a `\n` whenever the
next character is also `\n`). -/
def collapseNewlines : List Char → List Char
  | [] => []
  | [c] => [c]
  | c1 :: c2 :: rest =>
    if c1 = '\n' ∧ c2 = '\n' then
      collapseNewlines (c2 :: rest)
    else
      c1 :: collapseNewlines (c2 :: rest)

/-- The whitespace-to-space transform applied by pass 3. -/
def wsChar (c : Char) : Char := if pyIsSpace c then ' ' else c

/-- Pass 3: `re.sub(r'[\s]+', ' ', text)` — each maximal run of
whitespace collapses to a single space (scan form: drop a whitespace
character whose successor is also whitespace, and replace a surviving
whitespace character by `' '`). -/
def collapseSpaces : List Char → List Char
  | [] => []
  | [c] => [if pyIsSpace c then ' ' else c]
  | c1 :: c2 :: rest =>
    if pyIsSpace c1 ∧ pyIsSpace c2 then
      collapseSpaces (c2 :: rest)
    else
      (if pyIsSpace c1 then ' ' else c1) :: collapseSpaces (c2 :: rest)

/-- After a matched `http`, greedily consume an optional `s`. -/
def dropS : List Char → List Char
  | 's' :: r => r
  | r => r

/-- After a matched `http`/`https`, greedily consume an optional `://`. -/
def dropSlashes : List Char → List Char
  | ':' :: '/' :: '/' :: r => r
  | r => r

/-- Pass-4 worker, structurally recursive on a fuel argument that the
wrapper instantiates with the character count (every step consumes at
least one character). -/
def stripHttpGo : Nat → List Char → List Char
  | 0, l => l
  | _, [] => []
  | fuel + 1, c :: rest =>
    if c = 'h' ∧ rest.take 3 = ['t', 't', 'p'] then
      stripHttpGo fuel (dropSlashes (dropS (rest.drop 3)))
    else c :: stripHttpGo fuel rest

/-- Pass 4: `re.sub(r'http[s]?(://)?', '', text)` — at each position the
longest of `https://`, `http://`, `https`, `http` starting there is
deleted and scanning resumes after the match. -/
def stripHttp (l : List Char) : List Char := stripHttpGo l.length l

/-- Pass 5: `re.sub(r'[^\x00-\x7F]+', '', text)` — delete every
character above the 7-bit ASCII range. -/
def filterAscii (l : List Char) : List Char :=
  l.filter (fun c => c.toNat < 128)

/-- The five substitution passes of `clean_text`, without the final
`.strip()`.  (This is also exactly the inline normalizer used by
`openai_parser.extract_text_from_doc` / `extract_text_from_pdf`, which
omit the final strip.) -/
def cleanSubsL (l : List Char) : List Char :=
  filterAscii (stripHttp (collapseSpaces (collapseNewlines (subSpacePunct l))))

/-- `clean_text` on a character list: the five passes followed by
`.strip()`. -/
def cleanTextL (l : List Char) : List Char :=
  pyStrip (cleanSubsL l)

/-- `resume_parser.clean_text`. -/
def clean_text (s : String) : String := ⟨cleanTextL s.data⟩

/-- The inline normalizer of `openai_parser` (same five passes, no
final strip). -/
def cleanSubsStr (s : String) : String := ⟨cleanSubsL s.data⟩

/-- `true` iff the list contains two consecutive whitespace characters. -/
def hasWsRun : List Char → Bool
  | c1 :: c2 :: rest => (pyIsSpace c1 && pyIsSpace c2) || hasWsRun (c2 :: rest)
  | _ => false

/-- `true` iff the list contains a whitespace character immediately
followed by `,` or `.` (the pattern pass 1 rewrites). -/
def hasSpacePunct : List Char → Bool
  | c1 :: c2 :: rest =>
    (pyIsSpace c1 && (c2 = ',' || c2 = '.')) || hasSpacePunct (c2 :: rest)
  | _ => false

/-- `true` iff `http` occurs as a contiguous substring. -/
def hasHttp : List Char → Bool
  | [] => false
  | c :: rest => (decide (c = 'h') && decide (rest.take 3 = ['t', 't', 'p'])) || hasHttp rest

/-! ## `bytes.decode('utf-8', errors='ignore')`

Incremental UTF-8 decoder over a byte list, skipping (maximal invalid
subparts of) ill-formed sequences exactly as CPython's `ignore` error
handler does: a bad lead byte is skipped, and a truncated multi-byte
sequence is skipped up to the first bad continuation byte. -/

/-- Is `b` a UTF-8 continuation byte `0x80–0xBF`? -/
def isCont (b : Nat) : Bool := 0x80 ≤ b && b ≤ 0xBF

/-- Valid second byte for the given 3-byte lead (`0xE0` excludes
overlongs, `0xED` excludes surrogates). -/
def valid3Snd (b1 b2 : Nat) : Bool :=
  if b1 = 0xE0 then 0xA0 ≤ b2 && b2 ≤ 0xBF
  else if b1 = 0xED then 0x80 ≤ b2 && b2 ≤ 0x9F
  else isCont b2

/-- Valid second byte for the given 4-byte lead (`0xF0` excludes
overlongs, `0xF4` keeps the code point below `0x110000`). -/
def valid4Snd (b1 b2 : Nat) : Bool :=
  if b1 = 0xF0 then 0x90 ≤ b2 && b2 ≤ 0xBF
  else if b1 = 0xF4 then 0x80 ≤ b2 && b2 ≤ 0x8F
  else isCont b2

/-- Decoding worker, structurally recursive on a fuel argument that the
wrapper instantiates with the byte count (each step consumes at least
one byte, so the fuel never runs out before the input does). -/
def utf8Go : Nat → List Nat → List Char
  | 0, _ => []
  | _, [] => []
  | fuel + 1, b1 :: rest =>
    if b1 < 0x80 then Char.ofNat b1 :: utf8Go fuel rest
    else if 0xC2 ≤ b1 ∧ b1 ≤ 0xDF then
      match rest with
      | b2 :: rest2 =>
        if isCont b2 then
          Char.ofNat ((b1 - 0xC0) * 64 + (b2 - 0x80)) :: utf8Go fuel rest2
        else utf8Go fuel (b2 :: rest2)
      | [] => []
    else if 0xE0 ≤ b1 ∧ b1 ≤ 0xEF then
      match rest with
      | b2 :: rest2 =>
        if valid3Snd b1 b2 then
          match rest2 with
          | b3 :: rest3 =>
            if isCont b3 then
              Char.ofNat ((b1 - 0xE0) * 4096 + (b2 - 0x80) * 64 + (b3 - 0x80))
                :: utf8Go fuel rest3
            else utf8Go fuel (b3 :: rest3)
          | [] => []
        else utf8Go fuel (b2 :: rest2)
      | [] => []
    else if 0xF0 ≤ b1 ∧ b1 ≤ 0xF4 then
      match rest with
      | b2 :: rest2 =>
        if valid4Snd b1 b2 then
          match rest2 with
          | b3 :: rest3 =>
            if isCont b3 then
              match rest3 with
              | b4 :: rest4 =>
                if isCont b4 then
                  Char.ofNat ((b1 - 0xF0) * 262144 + (b2 - 0x80) * 4096 +
                      (b3 - 0x80) * 64 + (b4 - 0x80)) :: utf8Go fuel rest4
                else utf8Go fuel (b4 :: rest4)
              | [] => []
            else utf8Go fuel (b3 :: rest3)
          | [] => []
        else utf8Go fuel (b2 :: rest2)
      | [] => []
    else utf8Go fuel rest

/-- `bytes.decode('utf-8', errors='ignore')`. -/
def utf8DecodeIgnore (l : List Nat) : List Char := utf8Go l.length l

/-! ## The opaque format-decoding libraries and the four decoders
(resume_parser.py lines 68–122)

`fitz`, `docx2txt`, `striprtf.rtf_to_text` and the OpenAI chat
completion call are external collaborators: each is an oracle function,
with `Except.error` modelling the library call raising an exception. -/

/-- Oracles for the opaque external libraries used by the service. -/
structure Libs where
  /-- `fitz.open(stream=blob).load_page(i).get_text("text")` for every
  page: the per-page text of the document, or an exception. -/
  pdf : List Nat → Except String (List String)
  /-- `docx2txt.process(BytesIO(blob))`: body text or an exception. -/
  docx : List Nat → Except String String
  /-- `striprtf.rtf_to_text(content)`: plain text or an exception. -/
  rtf : String → Except String String
  /-- `client.chat.completions.create(...)`: maps the user-turn content
  to the completion text, or a provider exception. -/
  chat : String → Except String String

/-- `resume_parser.extract_text_from_pdf`: concatenate the page texts
separated by blank lines; `None` on a library exception or when the
concatenation is whitespace-only; otherwise the `clean_text` of it. -/
def extract_text_from_pdf (libs : Libs) (blob : List Nat) : Option String :=
  match libs.pdf blob with
  | .error _ => none
  | .ok pages =>
    let all_text := pages.foldl (fun acc t => acc ++ t ++ "\n\n") ""
    if pyStripStr all_text = "" then none else some (clean_text all_text)

/-- `resume_parser.extract_text_from_docx`: `None` on a library
exception or empty text (`if not text`), else `clean_text`. -/
def extract_text_from_docx (libs : Libs) (blob : List Nat) : Option String :=
  match libs.docx blob with
  | .error _ => none
  | .ok text => if text = "" then none else some (clean_text text)

/-- `resume_parser.extract_text_from_txt`: decode the bytes as UTF-8
ignoring errors; `None` when the decoded text is whitespace-only, else
`clean_text`. -/
def extract_text_from_txt (blob : List Nat) : Option String :=
  let text : String := ⟨utf8DecodeIgnore blob⟩
  if pyStripStr text = "" then none else some (clean_text text)

/-- `resume_parser.extract_text_from_rtf`: UTF-8-decode the bytes, pass
them through `rtf_to_text`; `None` on an exception or whitespace-only
text, else `clean_text`. -/
def extract_text_from_rtf (libs : Libs) (blob : List Nat) : Option String :=
  let content : String := ⟨utf8DecodeIgnore blob⟩
  match libs.rtf content with
  | .error _ => none
  | .ok text => if pyStripStr text = "" then none else some (clean_text text)

/-! ## The format dispatcher (resume_parser.py lines 135–153 and
openai_parser.py lines 55–67) -/

/-- The decoders a declared type string can dispatch to. -/
inductive Extractor where
  | pdf | docx | txt | rtf
deriving DecidableEq

/-- `file_extension.lower().strip().lstrip('.')` — the normalization
`detect_and_extract` applies to the declared type string. -/
def normExt (s : String) : String :=
  ⟨(pyStrip (s.data.map pyLowerChar)).dropWhile (fun c => c = '.')⟩

/-- The dictionary lookup `extractors.get(ext)` of
`detect_and_extract`: which decoder (if any) is selected. -/
def lookupExtractor (ext : String) : Option Extractor :=
  if ext = "pdf" then some .pdf
  else if ext = "docx" ∨ ext = "doc" then some .docx
  else if ext = "txt" ∨ ext = "text" then some .txt
  else if ext = "rtf" then some .rtf
  else none

/-- Which decoder `resume_parser.detect_and_extract` invokes for a
declared type string (`none` = the "unsupported" outcome). -/
def detectTag (file_extension : String) : Option Extractor :=
  lookupExtractor (normExt file_extension)

/-- Run the selected decoder. -/
def runExtractor (libs : Libs) (e : Extractor) (blob : List Nat) : Option String :=
  match e with
  | .pdf => extract_text_from_pdf libs blob
  | .docx => extract_text_from_docx libs blob
  | .txt => extract_text_from_txt blob
  | .rtf => extract_text_from_rtf libs blob

/-- `resume_parser.detect_and_extract`. -/
def detect_and_extract (libs : Libs) (blob : List Nat) (file_extension : String) :
    Option String :=
  match detectTag file_extension with
  | some e => runExtractor libs e blob
  | none => none

/-- Which decoder `openai_parser.detect_extension_from_blob` selects:
it lowercases and strips whitespace but strips no dots, and supports
only `pdf`, `docx` and `doc`. -/
def oaDetectTag (file_extension : String) : Option Extractor :=
  let ext := pyStripStr (pyLowerStr file_extension)
  if ext = "pdf" then some .pdf
  else if ext = "docx" ∨ ext = "doc" then some .docx
  else none

/-- `openai_parser.extract_text_from_doc`: like the resume-parser DOCX
decoder but with the inline normalizer (no final strip, and no
emptiness re-check after normalizing). -/
def oa_extract_text_from_doc (libs : Libs) (blob : List Nat) : Option String :=
  match libs.docx blob with
  | .error _ => none
  | .ok text => if text = "" then none else some (cleanSubsStr text)

/-- `openai_parser.extract_text_from_pdf`: page concatenation, `None`
on exception or whitespace-only raw text, else the inline normalizer
(no final strip). -/
def oa_extract_text_from_pdf (libs : Libs) (blob : List Nat) : Option String :=
  match libs.pdf blob with
  | .error _ => none
  | .ok pages =>
    let all_text := pages.foldl (fun acc t => acc ++ t ++ "\n\n") ""
    if pyStripStr all_text = "" then none else some (cleanSubsStr all_text)

/-- `openai_parser.detect_extension_from_blob`. -/
def detect_extension_from_blob (libs : Libs) (blob : List Nat) (file_extension : String) :
    Option String :=
  match oaDetectTag file_extension with
  | some .pdf => oa_extract_text_from_pdf libs blob
  | some _ => oa_extract_text_from_doc libs blob
  | none => none

/-! ## `base64.b64decode` (default `validate=False`)

Model of CPython's legacy `binascii.a2b_base64`: non-ASCII input is an
error; characters outside the base64 alphabet are discarded; a `=`
after at least two data characters of the current quad flushes the
partial quad and ends decoding; a trailing quad of one data character
is an "Invalid base64-encoded string" error and of two or three
characters (without padding) an "Incorrect padding" error. -/

/-- Value of a base64 alphabet character. -/
def b64Val (c : Char) : Option Nat :=
  if 'A' ≤ c ∧ c ≤ 'Z' then some (c.toNat - 65)
  else if 'a' ≤ c ∧ c ≤ 'z' then some (c.toNat - 97 + 26)
  else if '0' ≤ c ∧ c ≤ '9' then some (c.toNat - 48 + 52)
  else if c = '+' then some 62
  else if c = '/' then some 63
  else none

/-- The three bytes of a full quad of 6-bit values. -/
def quadBytes (v1 v2 v3 v4 : Nat) : List Nat :=
  [v1 * 4 + v2 / 16, (v2 % 16) * 16 + v3 / 4, (v3 % 4) * 64 + v4]

/-- Flush a partial quad terminated by `=` (two values give one byte,
three values give two bytes). -/
def flushPartial : List Nat → List Nat
  | [v1, v2] => [v1 * 4 + v2 / 16]
  | [v1, v2, v3] => [v1 * 4 + v2 / 16, (v2 % 16) * 16 + v3 / 4]
  | _ => []

/-- Decoding worker: `quad` holds the 6-bit values of the current
(incomplete) quad and `done` counts the data characters already
consumed into full quads (CPython's error message reports the total
data-character count). -/
def b64Core : List Char → List Nat → Nat → Except String (List Nat)
  | [], quad, done =>
    if quad.length = 0 then .ok []
    else if quad.length = 1 then
      .error ("Invalid base64-encoded string: number of data characters (" ++
        toString (done + 1) ++ ") cannot be 1 more than a multiple of 4")
    else .error "Incorrect padding"
  | c :: rest, quad, done =>
    if c = '=' then
      if 2 ≤ quad.length then .ok (flushPartial quad)
      else b64Core rest quad done
    else
      match b64Val c with
      | none => b64Core rest quad done
      | some v =>
        match quad with
        | [v1, v2, v3] =>
          (b64Core rest [] (done + 4)).map (fun bs => quadBytes v1 v2 v3 v ++ bs)
        | _ => b64Core rest (quad ++ [v]) done

/-- `base64.b64decode(s)` on a `str` argument. -/
def pyB64decode (s : String) : Except String (List Nat) :=
  if s.data.any (fun c => 127 < c.toNat) then
    .error "string argument should contain only ASCII characters"
  else b64Core s.data [] 0

/-! ## JSON values and `json.loads`

`json.loads` is the stdlib strict JSON parser.  The model below parses
the JSON grammar (objects, arrays, strings with the standard escapes,
numbers kept as their lexeme, `true`/`false`/`null`, plus the
non-standard `NaN`/`Infinity`/`-Infinity` literals that `json.loads`
accepts by default), insisting — like `json.loads` — on double-quoted
strings, no trailing data, no raw control characters inside strings,
and no leading zeros.  (Unpaired `\u` surrogate escapes are outside
the model.) -/

/-- A parsed JSON value.  Number literals are kept as their lexeme,
which is all the handlers ever need (they return the value unchanged). -/
inductive Json where
  | null
  | bool (b : Bool)
  | num (lexeme : String)
  | str (s : String)
  | arr (elems : List Json)
  | obj (fields : List (String × Json))

/-- JSON inter-token whitespace (space, tab, newline, carriage return). -/
def jsonWsChar (c : Char) : Bool := c = ' ' || c = '\t' || c = '\n' || c = '\r'

/-- Skip JSON whitespace. -/
def skipWs (l : List Char) : List Char := l.dropWhile jsonWsChar

/-- Hex digit value. -/
def hexVal (c : Char) : Option Nat :=
  if '0' ≤ c ∧ c ≤ '9' then some (c.toNat - 48)
  else if 'a' ≤ c ∧ c ≤ 'f' then some (c.toNat - 97 + 10)
  else if 'A' ≤ c ∧ c ≤ 'F' then some (c.toNat - 65 + 10)
  else none

/-- Parse the body of a JSON string (after the opening quote), applying
the standard escapes; fails on raw control characters, bad escapes, and
`\u` escapes that do not denote a Unicode scalar value. -/
def parseStrChars : List Char → Option (List Char × List Char)
  | [] => none
  | c :: rest =>
    if c = '"' then some ([], rest)
    else if c = '\\' then
      match rest with
      | 'n' :: r => (parseStrChars r).map (fun p => ('\n' :: p.1, p.2))
      | 't' :: r => (parseStrChars r).map (fun p => ('\t' :: p.1, p.2))
      | 'r' :: r => (parseStrChars r).map (fun p => ('\r' :: p.1, p.2))
      | 'b' :: r => (parseStrChars r).map (fun p => (Char.ofNat 8 :: p.1, p.2))
      | 'f' :: r => (parseStrChars r).map (fun p => (Char.ofNat 12 :: p.1, p.2))
      | '"' :: r => (parseStrChars r).map (fun p => ('"' :: p.1, p.2))
      | '\\' :: r => (parseStrChars r).map (fun p => ('\\' :: p.1, p.2))
      | '/' :: r => (parseStrChars r).map (fun p => ('/' :: p.1, p.2))
      | 'u' :: h1 :: h2 :: h3 :: h4 :: r =>
        match hexVal h1, hexVal h2, hexVal h3, hexVal h4 with
        | some a, some b, some c, some d =>
          let code := a * 4096 + b * 256 + c * 16 + d
          if 0xD800 ≤ code ∧ code ≤ 0xDFFF then none
          else (parseStrChars r).map (fun p => (Char.ofNat code :: p.1, p.2))
        | _, _, _, _ => none
      | _ => none
    else if c.toNat < 32 then none
    else (parseStrChars rest).map (fun p => (c :: p.1, p.2))

/-- Parse a JSON number lexeme: `-? int frac? exp?` with no leading
zeros.  Returns the lexeme and the remainder. -/
def parseNumLex (l : List Char) : Option (List Char × List Char) :=
  let signLen : Nat := if l.take 1 = ['-'] then 1 else 0
  let afterSign := l.drop signLen
  let intPart := afterSign.takeWhile Char.isDigit
  let afterInt := afterSign.dropWhile Char.isDigit
  if intPart = [] then none
  else if 2 ≤ intPart.length ∧ intPart.take 1 = ['0'] then none
  else
    let fracLen : Nat :=
      if afterInt.take 1 = ['.'] then
        let ds := (afterInt.drop 1).takeWhile Char.isDigit
        if ds = [] then 0 else 1 + ds.length
      else 0
    let afterFrac := afterInt.drop fracLen
    let expLen : Nat :=
      if afterFrac.take 1 = ['e'] ∨ afterFrac.take 1 = ['E'] then
        let sgn : Nat :=
          if (afterFrac.drop 1).take 1 = ['+'] ∨ (afterFrac.drop 1).take 1 = ['-'] then 1 else 0
        let ds := (afterFrac.drop (1 + sgn)).takeWhile Char.isDigit
        if ds = [] then 0 else 1 + sgn + ds.length
      else 0
    let totalLen := signLen + intPart.length + fracLen + expLen
    some (l.take totalLen, l.drop totalLen)

mutual

/-- Parse one JSON value (fuel-indexed recursive descent). -/
def parseJsonV : Nat → List Char → Option (Json × List Char)
  | 0, _ => none
  | fuel + 1, l =>
    match skipWs l with
    | 'n' :: 'u' :: 'l' :: 'l' :: r => some (.null, r)
    | 't' :: 'r' :: 'u' :: 'e' :: r => some (.bool true, r)
    | 'f' :: 'a' :: 'l' :: 's' :: 'e' :: r => some (.bool false, r)
    | 'N' :: 'a' :: 'N' :: r => some (.num "NaN", r)
    | 'I' :: 'n' :: 'f' :: 'i' :: 'n' :: 'i' :: 't' :: 'y' :: r =>
      some (.num "Infinity", r)
    | '-' :: 'I' :: 'n' :: 'f' :: 'i' :: 'n' :: 'i' :: 't' :: 'y' :: r =>
      some (.num "-Infinity", r)
    | '"' :: r => (parseStrChars r).map (fun p => (.str ⟨p.1⟩, p.2))
    | '[' :: r =>
      match skipWs r with
      | ']' :: r2 => some (.arr [], r2)
      | r2 => (parseArrItems fuel r2).map (fun p => (.arr p.1, p.2))
    | '{' :: r =>
      match skipWs r with
      | '}' :: r2 => some (.obj [], r2)
      | r2 => (parseObjItems fuel r2).map (fun p => (.obj p.1, p.2))
    | c :: r =>
      if c = '-' ∨ c.isDigit then
        (parseNumLex (c :: r)).map (fun p => (.num ⟨p.1⟩, p.2))
      else none
    | [] => none

/-- Parse the comma-separated elements of a non-empty array, including
the closing bracket. -/
def parseArrItems : Nat → List Char → Option (List Json × List Char)
  | 0, _ => none
  | fuel + 1, l =>
    match parseJsonV fuel l with
    | none => none
    | some (v, r) =>
      match skipWs r with
      | ',' :: r2 => (parseArrItems fuel r2).map (fun p => (v :: p.1, p.2))
      | ']' :: r2 => some ([v], r2)
      | _ => none

/-- Parse the comma-separated `"key": value` members of a non-empty
object, including the closing brace. -/
def parseObjItems : Nat → List Char → Option (List (String × Json) × List Char)
  | 0, _ => none
  | fuel + 1, l =>
    match skipWs l with
    | '"' :: r =>
      match parseStrChars r with
      | none => none
      | some (key, r2) =>
        match skipWs r2 with
        | ':' :: r3 =>
          match parseJsonV fuel r3 with
          | none => none
          | some (v, r4) =>
            match skipWs r4 with
            | ',' :: r5 => (parseObjItems fuel r5).map (fun p => ((⟨key⟩, v) :: p.1, p.2))
            | '}' :: r5 => some ([(⟨key⟩, v)], r5)
            | _ => none
        | _ => none
    | _ => none

end

/-- `json.loads`: parse one value and require only whitespace after it. -/
def jsonParse (s : String) : Option Json :=
  match parseJsonV (s.data.length + 1) s.data with
  | some (v, r) => if skipWs r = [] then some v else none
  | none => none

/-! ## The response post-processor `clean_json_response`
(resume_parser.py lines 294–299)

```python
def clean_json_response(result):
    if result.startswith('```'):
        result = re.sub(r'^```json?\n?', '', result)
        result = re.sub(r'\n?```$', '', result)
    return result.strip()
```
Note that the leading-fence regex literally requires `jso` after the
backticks (`json?` is `jso` plus an optional `n`), so a bare fence or a
fence with any other language tag is not stripped. -/

/-- `re.sub(r'^```json?\n?', '', result)`: greedily drop a leading
`` ```json `` or `` ```jso `` (each with an optional newline). -/
def stripLeadingFenceL (l : List Char) : List Char :=
  if l.take 8 = "```json\n".data then l.drop 8
  else if l.take 7 = "```json".data then l.drop 7
  else if l.take 7 = "```jso\n".data then l.drop 7
  else if l.take 6 = "```jso".data then l.drop 6
  else l

/-- `re.sub(r'\n?```$', '', result)`: drop a trailing `` ``` `` with an
optional preceding newline.  Python's `$` (without `re.MULTILINE`)
matches at the end of the string *or just before one final newline*, so
a fence followed by a single trailing newline is also stripped (the
newline itself survives the substitution). -/
def stripTrailingFenceL (l : List Char) : List Char :=
  let r := l.reverse
  if r.take 1 = ['\n'] then
    if r.take 5 = "\n```\n".data.reverse then ('\n' :: r.drop 5).reverse
    else if r.take 4 = "```\n".data.reverse then ('\n' :: r.drop 4).reverse
    else l
  else
    if r.take 4 = "\n```".data.reverse then (r.drop 4).reverse
    else if r.take 3 = "```".data.reverse then (r.drop 3).reverse
    else l

/-- `resume_parser.clean_json_response`. -/
def clean_json_response (result : String) : String :=
  let r :=
    if result.data.take 3 = "```".data then
      stripTrailingFenceL (stripLeadingFenceL result.data)
    else result.data
  ⟨pyStrip r⟩

/-- The inline fence-stripping of `openai_parser.upload_blobParser`
(lines 245–247): same two substitutions guarded by the same
`startswith('```')`, but with no final `.strip()`. -/
def oaCleanFence (result : String) : String :=
  if result.data.take 3 = "```".data then
    ⟨stripTrailingFenceL (stripLeadingFenceL result.data)⟩
  else result

/-! ## Requests, responses, and the HTTP endpoint handlers -/

/-- An inbound HTTP POST request, after Flask's JSON body parsing:
the `Content-Type` header and the two body fields (`none` = key
absent).  `data.get(...)` returning an empty string is falsy in Python
exactly like `None`, which `isFalsyField` captures. -/
structure Request where
  contentType : String
  typ : Option String
  encoded_blob : Option String

/-- Python truthiness test `if not field:` on an optional string field. -/
def isFalsyField : Option String → Bool
  | none => true
  | some s => s = ""

/-- The shapes of response a handler can produce.  `errJson` is
`jsonify({'error': msg}), status`; `errJsonEmpty` is
`jsonify({'error': msg, **empty_schema}), status` (the schema-shaped
empty body); `jsonVal` is `jsonify(parsed), status`; `raw` is a plain
string body; `unhandled` is an exception escaping the handler (Flask
would turn it into an unshaped 500 Internal Server Error page). -/
inductive Response where
  | errJson (msg : String) (status : Nat)
  | errJsonEmpty (msg : String) (status : Nat)
  | jsonVal (v : Json) (status : Nat)
  | raw (body : String) (status : Nat)
  | unhandled (exn : String)

/-- The four request-validator messages of the non-legacy handlers. -/
def msgInvalidCT : String := "Invalid content type. Expected application/json"

/-- Message for a missing/empty `type` field. -/
def msgMissingType : String := "Missing \"type\" field"

/-- Message for a missing/empty `encoded_blob` field. -/
def msgMissingBlob : String := "Missing \"encoded_blob\" field"

/-- Message prefix for a base64 decode failure
(`f'Invalid base64 data: {str(e)}'`). -/
def msgBadB64 (e : String) : String := "Invalid base64 data: " ++ e

/-- `parse_with_chat` (resume_parser.py lines 278–291): one chat
completion whose user turn embeds the extracted text. -/
def parse_with_chat (libs : Libs) (text : String) : Except String String :=
  libs.chat ("Parse this resume:\n\n" ++ text)

/-- Shared tail of `/parse-text`, `/parse` and `/uploads`: clean the
model output and return the parsed JSON, falling back to the cleaned
raw string, both with status 200. -/
def postProcess (result : String) : Response :=
  let r := clean_json_response result
  match jsonParse r with
  | some v => .jsonVal v 200
  | none => .raw r 200

/-- `resume_parser.upload_blobParser`, the `/uploads` handler
(lines 425–467). -/
def upload_blobParser (libs : Libs) (req : Request) : Response :=
  if ¬ strContains req.contentType "application/json" then .errJson msgInvalidCT 400
  else if isFalsyField req.typ then .errJson msgMissingType 400
  else if isFalsyField req.encoded_blob then .errJson msgMissingBlob 400
  else
    match pyB64decode (req.encoded_blob.getD "") with
    | .error e => .errJson (msgBadB64 e) 400
    | .ok blob =>
      match detect_and_extract libs blob (req.typ.getD "") with
      | none => .errJsonEmpty "Text extraction failed." 400
      | some text =>
        match parse_with_chat libs text with
        | .error e => .errJsonEmpty e 500
        | .ok result => postProcess result

/-- `resume_parser.parse_resume_text`, the `/parse-text` handler
(lines 339–382).  Identical pipeline to `/uploads` up to its
extraction-failure message. -/
def parse_resume_text (libs : Libs) (req : Request) : Response :=
  if ¬ strContains req.contentType "application/json" then .errJson msgInvalidCT 400
  else if isFalsyField req.typ then .errJson msgMissingType 400
  else if isFalsyField req.encoded_blob then .errJson msgMissingBlob 400
  else
    match pyB64decode (req.encoded_blob.getD "") with
    | .error e => .errJson (msgBadB64 e) 400
    | .ok blob =>
      match detect_and_extract libs blob (req.typ.getD "") with
      | none => .errJsonEmpty "Text extraction failed. File may be corrupted or unsupported." 400
      | some text =>
        match parse_with_chat libs text with
        | .error e => .errJsonEmpty e 500
        | .ok result => postProcess result

/-- The legacy prompt of `/upload` (template text abridged: the prompt
contents never influence the verified properties, the completion call
is an oracle). -/
def legacyPrompt (text : String) : String :=
  "you will be provided with resume text and your task is to parse resume details very precisely and generate output in json format like this.\n" ++ text

/-- `resume_parser.upload_blob`, the legacy `/upload` handler
(lines 385–422).  Its `try` block covers only field access and base64
decoding; `detect_and_extract` (which calls `.lower()` on a possibly
missing `type`) and the completion call run outside every `try`, so
exceptions there escape the handler. -/
def upload_blob (libs : Libs) (req : Request) : Response :=
  if strContains req.contentType "application/json" then
    match req.encoded_blob with
    | none =>
      -- `base64.b64decode(None)` raises inside the try block:
      -- `return str(e), 400` with the raw TypeError text.
      .raw "argument should be a bytes-like object or ASCII string, not 'NoneType'" 400
    | some b =>
      match pyB64decode b with
      | .error e => .raw e 400
      | .ok blob =>
        -- from here on the code runs outside the try/except
        match req.typ with
        | none =>
          -- `detect_and_extract(blob_data, None)` raises AttributeError
          .unhandled "'NoneType' object has no attribute 'lower'"
        | some ext =>
          match detect_and_extract libs blob ext with
          | none => .errJson "Text extraction failed." 400
          | some text =>
            match libs.chat (legacyPrompt text) with
            | .error e => .unhandled e
            | .ok content => .raw content 200
  else .raw "Invalid content type" 400

/-- `openai_parser.upload_blobParser`, the `/uploads` handler of the
second source file (lines 128–254): same validator, its own extraction
check (`pdf_text is None or pdf_text.strip() == ''`), and it returns
the fence-stripped model output raw — it never parses it as JSON. -/
def oa_upload_blobParser (libs : Libs) (req : Request) : Response :=
  if ¬ strContains req.contentType "application/json" then .errJson msgInvalidCT 400
  else if isFalsyField req.typ then .errJson msgMissingType 400
  else if isFalsyField req.encoded_blob then .errJson msgMissingBlob 400
  else
    match pyB64decode (req.encoded_blob.getD "") with
    | .error e => .errJson (msgBadB64 e) 400
    | .ok blob =>
      let pdf_text := detect_extension_from_blob libs blob (req.typ.getD "")
      if pdf_text = none ∨ pyStripStr (pdf_text.getD "") = "" then
        .errJsonEmpty
          "Text extraction failed. File may be corrupted, password-protected, or unsupported format."
          400
      else
        match libs.chat (legacyPrompt (pdf_text.getD "")) with
        | .error e => .errJson e 500
        | .ok result => .raw (oaCleanFence result) 200

/-! ## Document-grounded mode: polling and cleanup
(resume_parser.py `parse_with_assistant`, lines 173–275) -/

/-- One observation of a polled status, classified. -/
inductive PollAction where
  | success
  | failure (msg : String)
  | keepPolling
deriving DecidableEq

/-- The vector-store file-processing loop body (lines 214–223): only
`completed` and `failed` are terminal; every other status sleeps and
polls again. -/
def vsFileStep (status : String) : PollAction :=
  if status = "completed" then .success
  else if status = "failed" then .failure "File processing failed"
  else .keepPolling

/-- The run-status loop body (lines 246–255): `completed` is terminal
success, `failed`/`cancelled`/`expired` are terminal failures. -/
def runStep (status : String) : PollAction :=
  if status = "completed" then .success
  else if status = "failed" ∨ status = "cancelled" ∨ status = "expired" then
    .failure ("Run failed with status: " ++ status)
  else .keepPolling

/-- Run a polling loop against the stream of statuses the provider
reports, for at most `fuel` polls (`none` = still polling after `fuel`
iterations; the loops in the code have no bound of their own). -/
def pollLoop (step : String → PollAction) : Nat → (Nat → String) → Option (Except String Unit)
  | 0, _ => none
  | fuel + 1, statuses =>
    match step (statuses 0) with
    | .success => some (.ok ())
    | .failure m => some (.error m)
    | .keepPolling => pollLoop step fuel (fun i => statuses (i + 1))

/-- Provider-side environment of one `/parse` request: the two status
streams, the thread's message list (role, content), and the outcomes of
the three cleanup calls. -/
structure AsstEnv where
  vsStatuses : Nat → String
  runStatuses : Nat → String
  messages : List (String × String)
  delAssistant : Except String Unit
  delVectorStore : Except String Unit
  delFile : Except String Unit

/-- What one invocation of `parse_with_assistant` did: its return value
(`none` = one of the unbounded polling loops is still running after the
given fuel; `some (.error e)` = the function raised), and which of the
three provider-side resources it deleted, in order. -/
structure AsstOutcome where
  result : Option (Except String String)
  cleaned : List String

/-- `resume_parser.parse_with_assistant`: poll file processing, poll
the run, read the first assistant message, then delete assistant,
vector store and file.  The three deletions happen only after a result
was retrieved, and a deletion failure raises, discarding the result. -/
def parse_with_assistant (env : AsstEnv) (fuel : Nat) : AsstOutcome :=
  match pollLoop vsFileStep fuel env.vsStatuses with
  | none => ⟨none, []⟩
  | some (.error m) => ⟨some (.error m), []⟩
  | some (.ok _) =>
    match pollLoop runStep fuel env.runStatuses with
    | none => ⟨none, []⟩
    | some (.error m) => ⟨some (.error m), []⟩
    | some (.ok _) =>
      match env.messages.find? (fun m => m.1 = "assistant") with
      | none => ⟨some (.error "No response from assistant"), []⟩
      | some msg =>
        match env.delAssistant with
        | .error e => ⟨some (.error e), []⟩
        | .ok _ =>
          match env.delVectorStore with
          | .error e => ⟨some (.error e), ["assistant"]⟩
          | .ok _ =>
            match env.delFile with
            | .error e => ⟨some (.error e), ["assistant", "vector_store"]⟩
            | .ok _ => ⟨some (.ok msg.2), ["assistant", "vector_store", "file"]⟩

/-- `resume_parser.parse_resume`, the `/parse` handler (lines
302–336): validation, then the assistant workflow inside a `try` whose
`except` produces the schema-shaped 500.  `none` = a polling loop is
still running. -/
def parse_resume (env : AsstEnv) (fuel : Nat) (req : Request) :
    Option Response :=
  if ¬ strContains req.contentType "application/json" then some (.errJson msgInvalidCT 400)
  else if isFalsyField req.typ then some (.errJson msgMissingType 400)
  else if isFalsyField req.encoded_blob then some (.errJson msgMissingBlob 400)
  else
    match pyB64decode (req.encoded_blob.getD "") with
    | .error e => some (.errJson (msgBadB64 e) 400)
    | .ok _blob =>
      match (parse_with_assistant env fuel).result with
      | none => none
      | some (.error e) => some (.errJsonEmpty e 500)
      | some (.ok result) => some (postProcess result)

/-! ## Claim-side definitions (for refinement comparisons)

These follow the wording of the claims, not the code, and exist only to
be compared against the code-derived definitions above. -/

/-- The supported type tags named by the spec and claim C3. -/
def supportedTags : List String := ["pdf", "docx", "doc", "txt", "text", "rtf"]

/-- Remove at most one leading dot. -/
def stripOneLeadingDot (s : String) : String :=
  match s.data with
  | '.' :: r => ⟨r⟩
  | _ => s

/-- Claim C3's notion of a supported type string: equal to a supported
tag "up to letter case, surrounding whitespace, and an optional leading
dot". -/
def claimSupported (s : String) : Bool :=
  supportedTags.contains (stripOneLeadingDot (pyStripStr (pyLowerStr s)))

/-! ## Concrete fixtures for witnesses and counterexamples -/

/-- Library oracles in which every external call raises. -/
def failLibs : Libs :=
  ⟨fun _ => .error "fitz: cannot open broken document",
   fun _ => .error "docx2txt: bad zip file",
   fun _ => .error "striprtf: malformed rtf",
   fun _ => .error "OpenAIError: api key not set"⟩

/-- Library oracles whose PDF decoder yields one page of text and whose
completion call fails — used to exhibit a decoder being invoked and a
provider exception escaping. -/
def markerLibs : Libs :=
  ⟨fun _ => .ok ["marker page text"],
   fun _ => .error "docx2txt: bad zip file",
   fun _ => .error "striprtf: malformed rtf",
   fun _ => .error "OpenAIError: connection refused"⟩

/-- A well-formed request: JSON content type, `txt` type tag, and the
base64 encoding of the ASCII bytes of `hello`. -/
def helloReq : Request := ⟨"application/json", some "txt", some "aGVsbG8="⟩

/-- A provider environment whose run polling immediately reports
`failed` and whose cleanup calls would all succeed. -/
def runFailedEnv : AsstEnv :=
  ⟨fun _ => "completed", fun _ => "failed", [("assistant", "\x7b\x7d")],
   .ok (), .ok (), .ok ()⟩

/-- A provider environment where everything succeeds. -/
def happyEnv (response : String) : AsstEnv :=
  ⟨fun _ => "completed", fun _ => "completed", [("assistant", response)],
   .ok (), .ok (), .ok ()⟩

/-- A provider environment where the work succeeds but deleting the
assistant during cleanup raises. -/
def cleanupFailEnv : AsstEnv :=
  ⟨fun _ => "completed", fun _ => "completed", [("assistant", "\x7b\"ok\": true\x7d")],
   .error "delete assistant: connection reset", .ok (), .ok ()⟩

/-! # Lemmas

## Basic facts about `pyStrip` -/

theorem head?_dropWhile_not (p : Char → Bool) :
    ∀ (l : List Char) (c : Char), (l.dropWhile p).head? = some c → p c = false := by
  intro l
  induction l with
  | nil => intro c h; simp [List.dropWhile] at h
  | cons a t ih =>
    intro c h
    by_cases hp : p a
    · rw [List.dropWhile_cons_of_pos hp] at h
      exact ih c h
    · rw [List.dropWhile_cons_of_neg hp] at h
      simp at h
      subst h
      simpa using hp

theorem dropWhile_eq_self_of_head (p : Char → Bool) (l : List Char)
    (h : ∀ c, l.head? = some c → p c = false) : l.dropWhile p = l := by
  cases l with
  | nil => rfl
  | cons a t =>
    have := h a rfl
    simp [List.dropWhile_cons, this]

theorem dropWhile_idem (p : Char → Bool) (l : List Char) :
    (l.dropWhile p).dropWhile p = l.dropWhile p :=
  dropWhile_eq_self_of_head p _ (head?_dropWhile_not p l)

theorem getLast?_append_right (t s : List Char) (h : s ≠ []) :
    (t ++ s).getLast? = s.getLast? := by
  rw [← List.head?_reverse, ← List.head?_reverse, List.reverse_append,
    List.head?_append_of_ne_nil]
  simpa using h

theorem getLast?_dropWhile (p : Char → Bool) (l : List Char)
    (h : l.dropWhile p ≠ []) : (l.dropWhile p).getLast? = l.getLast? := by
  conv_rhs => rw [← List.takeWhile_append_dropWhile (p := p) (l := l)]
  rw [getLast?_append_right _ _ h]

theorem pyStrip_idem (l : List Char) : pyStrip (pyStrip l) = pyStrip l := by
  unfold pyStrip
  by_cases hD : (l.dropWhile pyIsSpace).reverse.dropWhile pyIsSpace = []
  · simp [hD, List.dropWhile_nil]
  · have h1 : ((l.dropWhile pyIsSpace).reverse.dropWhile pyIsSpace).reverse.dropWhile pyIsSpace
        = ((l.dropWhile pyIsSpace).reverse.dropWhile pyIsSpace).reverse := by
      apply dropWhile_eq_self_of_head
      intro c hc
      rw [List.head?_reverse, getLast?_dropWhile _ _ hD, List.getLast?_reverse] at hc
      exact head?_dropWhile_not pyIsSpace l c hc
    rw [h1, List.reverse_reverse, dropWhile_idem]

theorem mem_of_pyStrip {c : Char} {l : List Char} (h : c ∈ pyStrip l) : c ∈ l := by
  unfold pyStrip at h
  rw [List.mem_reverse] at h
  have h2 : c ∈ (l.dropWhile pyIsSpace).reverse :=
    (List.dropWhile_sublist _).mem h
  rw [List.mem_reverse] at h2
  exact (List.dropWhile_sublist _).mem h2

theorem mem_filterAscii_lt {c : Char} {l : List Char} (h : c ∈ filterAscii l) :
    c.toNat < 128 := by
  have := (List.mem_filter.mp h).2
  simpa using this

theorem clean_text_stripped (s : String) : pyStripStr (clean_text s) = clean_text s := by
  show String.mk (pyStrip (pyStrip (cleanSubsL s.data))) = String.mk (pyStrip (cleanSubsL s.data))
  rw [pyStrip_idem]

/-! # Claim theorems -/

/-- **C1, counterexample.**  The claim asserts that for every input the
normalizer output has no run of two or more consecutive whitespace
characters (and no `http` token).  On input `"a http b"` the whitespace
collapsing runs *before* the `http`-stripping pass, which deletes the
four letters between two already-single spaces and leaves the double
space `"a  b"` in the output. -/
theorem C1_counterexample :
    clean_text "a http b" = "a  b" ∧ hasWsRun (clean_text "a http b").data = true := by
  constructor <;> decide

/-- **C1, amended.**  Of the three claimed output invariants only the
ASCII one holds unconditionally: every character of the normalizer
output (both `resume_parser.clean_text` and the strip-free inline
normalizer of `openai_parser`) is in the 7-bit ASCII range.  The
no-`http`-token and no-whitespace-run parts fail because the
scheme-removal and non-ASCII-removal passes run after whitespace
collapsing and can create new whitespace runs (and can even create a
new `http` occurrence, e.g. `clean_text "htthttpp" = "http"`). -/
theorem C1_amended (x : String) (c : Char) :
    (c ∈ (clean_text x).data → c.toNat < 128) ∧
    (c ∈ (cleanSubsStr x).data → c.toNat < 128) := by
  constructor
  · intro hc
    have h1 : c ∈ cleanSubsL x.data := mem_of_pyStrip hc
    exact mem_filterAscii_lt h1
  · intro hc
    exact mem_filterAscii_lt hc

/-- Witness for `C1_amended` at the concrete input `"héllo"`. -/
theorem C1_amended_witness :
    'h' ∈ (clean_text "héllo").data ∧ 'h'.toNat < 128 :=
  ⟨by decide, (C1_amended "héllo" 'h').1 (by decide)⟩

/-- **C4, counterexample.**  The claim asserts every decoder result is
either non-empty non-whitespace text or the explicit no-text signal
(`None`).  The TXT decoder checks that the *raw* decoded text is not
whitespace-only but returns `clean_text` of it unchecked; on the UTF-8
bytes `C3 A9` of `"é"` the raw text is non-empty, and the normalizer
then deletes the non-ASCII character, so the decoder returns the empty
string — neither usable text nor the `None` signal. -/
theorem C4_counterexample : extract_text_from_txt [0xC3, 0xA9] = some "" := by decide

/-- **C4, amended.**  Every decoder returns either the no-text signal
`None` or a whitespace-trimmed text result *which may be empty* (the
non-emptiness guarantee fails, see the counterexample).  The
empty-blob half of the claim holds: the TXT decoder on a zero-length
blob returns `None` without raising, and the PDF/DOCX/RTF decoders
return `None` (rather than propagating an exception) whenever their
library call raises — which is what a zero-length blob produces for
`fitz`/`docx2txt` — or yields empty/whitespace-only text. -/
theorem C4_amended :
    (∀ blob, extract_text_from_txt blob = none ∨
      ∃ s, extract_text_from_txt blob = some s ∧ pyStripStr s = s) ∧
    (extract_text_from_txt [] = none) ∧
    (∀ libs blob, (∃ e, libs.pdf blob = .error e) →
      extract_text_from_pdf libs blob = none) ∧
    (∀ libs blob, (∃ e, libs.docx blob = .error e) →
      extract_text_from_docx libs blob = none) ∧
    (∀ libs blob, (∃ e, libs.rtf ⟨utf8DecodeIgnore blob⟩ = .error e) →
      extract_text_from_rtf libs blob = none) ∧
    (∀ libs blob, libs.docx blob = .ok "" → extract_text_from_docx libs blob = none) ∧
    (∀ libs blob t, libs.rtf ⟨utf8DecodeIgnore blob⟩ = .ok t → pyStripStr t = "" →
      extract_text_from_rtf libs blob = none) ∧
    (∀ libs blob, extract_text_from_pdf libs blob = none ∨
      ∃ s, extract_text_from_pdf libs blob = some s ∧ pyStripStr s = s) ∧
    (∀ libs blob, extract_text_from_docx libs blob = none ∨
      ∃ s, extract_text_from_docx libs blob = some s ∧ pyStripStr s = s) ∧
    (∀ libs blob, extract_text_from_rtf libs blob = none ∨
      ∃ s, extract_text_from_rtf libs blob = some s ∧ pyStripStr s = s) := by
  refine ⟨?_, by decide, ?_, ?_, ?_, ?_, ?_, ?_, ?_, ?_⟩
  · intro blob
    unfold extract_text_from_txt
    dsimp only
    split
    · exact Or.inl rfl
    · exact Or.inr ⟨_, rfl, clean_text_stripped _⟩
  · rintro libs blob ⟨e, he⟩
    unfold extract_text_from_pdf
    rw [he]
  · rintro libs blob ⟨e, he⟩
    unfold extract_text_from_docx
    rw [he]
  · rintro libs blob ⟨e, he⟩
    unfold extract_text_from_rtf
    dsimp only
    rw [he]
  · intro libs blob h
    unfold extract_text_from_docx
    rw [h]
    rfl
  · intro libs blob t h hstrip
    unfold extract_text_from_rtf
    dsimp only
    rw [h]
    simp [hstrip]
  · intro libs blob
    unfold extract_text_from_pdf
    dsimp only
    split
    · exact Or.inl rfl
    · split
      · exact Or.inl rfl
      · exact Or.inr ⟨_, rfl, clean_text_stripped _⟩
  · intro libs blob
    unfold extract_text_from_docx
    split
    · exact Or.inl rfl
    · split
      · exact Or.inl rfl
      · exact Or.inr ⟨_, rfl, clean_text_stripped _⟩
  · intro libs blob
    unfold extract_text_from_rtf
    dsimp only
    split
    · exact Or.inl rfl
    · split
      · exact Or.inl rfl
      · exact Or.inr ⟨_, rfl, clean_text_stripped _⟩

/-- Witness for `C4_amended`: the DOCX decoder returns the no-text
signal when `docx2txt` raises on the empty blob. -/
theorem C4_amended_witness :
    failLibs.docx [] = .error "docx2txt: bad zip file" ∧
    extract_text_from_docx failLibs [] = none :=
  ⟨rfl, C4_amended.2.2.2.1 failLibs [] ⟨_, rfl⟩⟩

/-- **C3, counterexample.**  `"..pdf"` is not equal to any supported tag
up to case, surrounding whitespace and *an* optional leading dot (one
dot removed still leaves `".pdf"`), so the claim requires the
"unsupported" outcome with no decoder invocation; but
`detect_and_extract` strips *all* leading dots (`lstrip('.')`) and
invokes the PDF decoder, which here returns extracted text. -/
theorem C3_counterexample :
    claimSupported "..pdf" = false ∧
    detectTag "..pdf" = some Extractor.pdf ∧
    detect_and_extract markerLibs [] "..pdf" = some "marker page text" := by
  refine ⟨by decide, by decide, by rfl⟩

/-- Case characterization of the dispatch dictionary lookup. -/
theorem lookupExtractor_cases (e : String) :
    (lookupExtractor e = some Extractor.pdf ↔ e = "pdf") ∧
    (lookupExtractor e = some Extractor.docx ↔ (e = "docx" ∨ e = "doc")) ∧
    (lookupExtractor e = some Extractor.txt ↔ (e = "txt" ∨ e = "text")) ∧
    (lookupExtractor e = some Extractor.rtf ↔ e = "rtf") ∧
    (lookupExtractor e = none ↔ ¬ (e ∈ supportedTags)) := by
  unfold lookupExtractor
  split_ifs with h1 h2 h3 h4
  · subst h1; refine ⟨?_, ?_, ?_, ?_, ?_⟩ <;> decide
  · rcases h2 with h | h <;> subst h <;> refine ⟨?_, ?_, ?_, ?_, ?_⟩ <;> decide
  · rcases h3 with h | h <;> subst h <;> refine ⟨?_, ?_, ?_, ?_, ?_⟩ <;> decide
  · subst h4; refine ⟨?_, ?_, ?_, ?_, ?_⟩ <;> decide
  · refine ⟨?_, ?_, ?_, ?_, ?_⟩ <;> simp_all [supportedTags]

/-- **C3, amended.**  For `resume_parser.detect_and_extract` the
dispatch table is exact after normalizing with lower-case, whitespace
strip and removal of *any number* of leading dots: each normalized
supported tag selects its decoder and every other type string yields
the `None` "unsupported" outcome without consulting any decoder oracle.
The `openai_parser` dispatcher `detect_extension_from_blob` strips no
dots and supports only `pdf`/`docx`/`doc`. -/
theorem C3_amended :
    (∀ s, detectTag s = some Extractor.pdf ↔ normExt s = "pdf") ∧
    (∀ s, detectTag s = some Extractor.docx ↔ (normExt s = "docx" ∨ normExt s = "doc")) ∧
    (∀ s, detectTag s = some Extractor.txt ↔ (normExt s = "txt" ∨ normExt s = "text")) ∧
    (∀ s, detectTag s = some Extractor.rtf ↔ normExt s = "rtf") ∧
    (∀ s, detectTag s = none ↔ ¬ (normExt s ∈ supportedTags)) ∧
    (∀ s libs blob, detectTag s = none → detect_and_extract libs blob s = none) ∧
    (∀ s, oaDetectTag s = some Extractor.pdf ↔ pyStripStr (pyLowerStr s) = "pdf") ∧
    (∀ s, oaDetectTag s = some Extractor.docx ↔
      (pyStripStr (pyLowerStr s) = "docx" ∨ pyStripStr (pyLowerStr s) = "doc")) ∧
    (∀ s e, oaDetectTag s = some e → e = Extractor.pdf ∨ e = Extractor.docx) ∧
    (∀ s libs blob, oaDetectTag s = none → detect_extension_from_blob libs blob s = none) := by
  refine ⟨fun s => (lookupExtractor_cases (normExt s)).1,
    fun s => (lookupExtractor_cases (normExt s)).2.1,
    fun s => (lookupExtractor_cases (normExt s)).2.2.1,
    fun s => (lookupExtractor_cases (normExt s)).2.2.2.1,
    fun s => (lookupExtractor_cases (normExt s)).2.2.2.2,
    ?_, ?_, ?_, ?_, ?_⟩
  · intro s libs blob h
    unfold detect_and_extract
    rw [h]
  · intro s
    unfold oaDetectTag
    dsimp only
    split_ifs with h1 h2
    · simp [h1]
    · rcases h2 with h | h <;> simp_all
    · simp_all
  · intro s
    unfold oaDetectTag
    dsimp only
    split_ifs with h1 h2
    · simp_all
    · rcases h2 with h | h <;> simp_all
    · simp_all
  · intro s e
    unfold oaDetectTag
    dsimp only
    split_ifs with h1 h2
    · intro h; simp at h; exact Or.inl h.symm
    · intro h; simp at h; exact Or.inr h.symm
    · intro h; simp at h
  · intro s libs blob h
    unfold detect_extension_from_blob
    rw [h]

/-- Witness for `C3_amended` at the unsupported tag `"exe"`. -/
theorem C3_amended_witness :
    detectTag "exe" = none ∧ detect_and_extract failLibs [] "exe" = none :=
  ⟨by decide, C3_amended.2.2.2.2.2.1 "exe" failLibs [] (by decide)⟩

/-- **C6, counterexample.**  The leading-fence regex `^```json?\n?`
literally requires `jso` after the backticks, so a bare fence (no
language tag) is *not* stripped: on the model response
`` "```\nhello\n```" `` the post-processor removes only the trailing
fence, JSON parsing then fails, and the handler returns the
still-fenced, trailing-stripped string — not the parsed structure the
claim promises for a fenced response, and not the raw string unchanged
either. -/
theorem C6_counterexample :
    postProcess "```\nhello\n```" = .raw "```\nhello" 200 := by rfl

/-- Stripping the leading fence after a literal `` ```json `` plus
newline removes exactly those eight characters. -/
theorem stripLeadingFenceL_json (X : List Char) :
    stripLeadingFenceL ("```json\n".data ++ X) = X := by
  unfold stripLeadingFenceL
  rw [List.take_left' (by decide), if_pos rfl, List.drop_left' (by decide)]

/-- Stripping the trailing fence after a literal newline plus `` ``` ``
removes exactly those four characters. -/
theorem stripTrailingFenceL_nl (X : List Char) :
    stripTrailingFenceL (X ++ "\n```".data) = X := by
  unfold stripTrailingFenceL
  dsimp only
  rw [List.reverse_append]
  rw [List.take_append_of_le_length (by decide), if_neg (by decide)]
  rw [List.take_left' (by decide), if_pos rfl, List.drop_left' (by decide),
    List.reverse_reverse]

/-- Stripping the trailing fence when the fence is followed by one
final newline: `$` matches just before that newline, the fence is
removed, and the newline survives. -/
theorem stripTrailingFenceL_nl_term (X : List Char) :
    stripTrailingFenceL (X ++ "\n```\n".data) = X ++ ['\n'] := by
  unfold stripTrailingFenceL
  dsimp only
  rw [List.reverse_append]
  rw [List.take_append_of_le_length (by decide), if_pos (by decide)]
  rw [List.take_left' (by decide), if_pos rfl, List.drop_left' (by decide),
    List.reverse_cons, List.reverse_reverse]

/-- Appending one trailing whitespace character does not change the
result of `str.strip()`. -/
theorem pyStrip_append_ws {c : Char} (hc : pyIsSpace c = true) (X : List Char) :
    pyStrip (X ++ [c]) = pyStrip X := by
  unfold pyStrip
  rw [List.dropWhile_append]
  by_cases hX : (X.dropWhile pyIsSpace).isEmpty
  · rw [if_pos hX]
    rw [List.isEmpty_iff.mp hX]
    rw [show List.dropWhile pyIsSpace [c] = [] by
      rw [List.dropWhile_cons_of_pos hc]; rfl]
  · rw [if_neg hX]
    rw [List.reverse_append]
    rw [show [c].reverse = [c] from rfl]
    rw [show ([c] ++ (X.dropWhile pyIsSpace).reverse) =
      c :: (X.dropWhile pyIsSpace).reverse from rfl]
    rw [List.dropWhile_cons_of_pos hc]

/-- `postProcess` never produces the escaped-exception outcome. -/
theorem postProcess_ne_unhandled (s e : String) : postProcess s ≠ .unhandled e := by
  unfold postProcess
  dsimp only
  split <;> simp

/-- **C6, amended.**  The post-processor strips a leading fence only
when the backticks are immediately followed by `jso`/`json` (optional
newline); it strips a trailing `` ``` `` (optional preceding newline)
ending at the end of the string *or just before one final newline*
(Python's `$`), whenever the response merely starts with `` ``` ``; it
always strips surrounding whitespace; then strict JSON parsing is
attempted: on success the parsed structure is returned with 200, and on
failure the *processed* (fence/whitespace-handled, not raw) string is
returned with 200.  The `openai_parser` `/uploads` variant performs
only the fence stripping and never returns a parsed structure. -/
theorem C6_amended :
    (∀ t : String, clean_json_response ("```json\n" ++ t ++ "\n```") = pyStripStr t) ∧
    (∀ t : String, clean_json_response ("```json\n" ++ t ++ "\n```\n") = pyStripStr t) ∧
    (∀ s : String, s.data.take 3 ≠ "```".data → clean_json_response s = pyStripStr s) ∧
    (∀ s v, jsonParse (clean_json_response s) = some v → postProcess s = .jsonVal v 200) ∧
    (∀ s, jsonParse (clean_json_response s) = none →
      postProcess s = .raw (clean_json_response s) 200) ∧
    (∀ libs req v st, oa_upload_blobParser libs req ≠ .jsonVal v st) := by
  refine ⟨?_, ?_, ?_, ?_, ?_, ?_⟩
  · intro t
    have hd : ("```json\n" ++ t ++ "\n```").data =
        "```json\n".data ++ (t.data ++ "\n```".data) := by
      rw [String.data_append, String.data_append, List.append_assoc]
    unfold clean_json_response
    dsimp only
    rw [hd, List.take_append_of_le_length (by decide), if_pos (by decide),
      stripLeadingFenceL_json, stripTrailingFenceL_nl]
    rfl
  · intro t
    have hd : ("```json\n" ++ t ++ "\n```\n").data =
        "```json\n".data ++ (t.data ++ "\n```\n".data) := by
      rw [String.data_append, String.data_append, List.append_assoc]
    unfold clean_json_response
    dsimp only
    rw [hd, List.take_append_of_le_length (by decide), if_pos (by decide),
      stripLeadingFenceL_json, stripTrailingFenceL_nl_term,
      pyStrip_append_ws (by decide)]
    rfl
  · intro s h
    unfold clean_json_response
    dsimp only
    rw [if_neg h]
    rfl
  · intro s v h
    unfold postProcess
    dsimp only
    rw [h]
  · intro s h
    unfold postProcess
    dsimp only
    rw [h]
  · intro libs req v st
    unfold oa_upload_blobParser
    split_ifs
    all_goals try solve | simp
    all_goals (split <;> try solve | simp)
    all_goals (dsimp only; split_ifs <;> try solve | simp)
    all_goals (split <;> simp)

/-- Witness for `C6_amended`: a `json`-tagged fenced empty object with
a trailing newline is stripped and parsed, and the parsed value is
returned with 200. -/
theorem C6_amended_witness :
    postProcess "```json\n\x7b\x7d\n```\n" = .jsonVal (Json.obj []) 200 :=
  C6_amended.2.2.2.1 "```json\n\x7b\x7d\n```\n" (Json.obj []) (by rfl)

/-- **C7, counterexample.**  The legacy `/upload` handler calls the
completion client outside any `try`: on a well-formed request whose
provider call raises, the exception escapes the handler instead of
being translated into a categorized 400/500. -/
theorem C7_counterexample :
    upload_blob markerLibs helloReq = .unhandled "OpenAIError: connection refused" := by rfl

/-- **C7, amended.**  Every handler except the legacy `/upload` catches
decoder and provider exceptions locally: `/parse-text` and `/uploads`
(both files) never let an exception escape, and `/parse` never produces
an unshaped response whenever it responds at all.  `/upload` lets both
the dispatcher `AttributeError` (missing `type`) and provider
exceptions escape (see the counterexample and `C5_counterexample`). -/
theorem C7_amended :
    (∀ libs req e, upload_blobParser libs req ≠ .unhandled e) ∧
    (∀ libs req e, parse_resume_text libs req ≠ .unhandled e) ∧
    (∀ libs req e, oa_upload_blobParser libs req ≠ .unhandled e) ∧
    (∀ env fuel req r e, parse_resume env fuel req = some r → r ≠ .unhandled e) := by
  refine ⟨?_, ?_, ?_, ?_⟩
  · intro libs req e
    unfold upload_blobParser
    split_ifs
    all_goals try solve | simp
    all_goals (split <;> try solve | simp)
    all_goals (split <;> try solve | simp)
    all_goals (split <;> try solve | simp)
    all_goals exact postProcess_ne_unhandled _ e
  · intro libs req e
    unfold parse_resume_text
    split_ifs
    all_goals try solve | simp
    all_goals (split <;> try solve | simp)
    all_goals (split <;> try solve | simp)
    all_goals (split <;> try solve | simp)
    all_goals exact postProcess_ne_unhandled _ e
  · intro libs req e
    unfold oa_upload_blobParser
    split_ifs
    all_goals try solve | simp
    all_goals (split <;> try solve | simp)
    all_goals (dsimp only; split_ifs <;> try solve | simp)
    all_goals (split <;> simp)
  · intro env fuel req r e hr
    unfold parse_resume at hr
    split_ifs at hr
    all_goals try solve
      | (simp only [Option.some.injEq] at hr; subst hr; simp)
    revert hr
    split
    · intro hr
      simp only [Option.some.injEq] at hr
      subst hr
      simp
    · split
      · intro hr
        simp at hr
      · intro hr
        simp only [Option.some.injEq] at hr
        subst hr
        simp
      · intro hr
        simp only [Option.some.injEq] at hr
        subst hr
        exact postProcess_ne_unhandled _ e

/-- Witness for `C7_amended`: the `/parse` handler shapes the
run-failure into a schema-shaped 500. -/
theorem C7_amended_witness :
    parse_resume runFailedEnv 1 helloReq =
      some (.errJsonEmpty "Run failed with status: failed" 500) ∧
    Response.errJsonEmpty "Run failed with status: failed" 500 ≠ .unhandled "x" :=
  ⟨by rfl, C7_amended.2.2.2 runFailedEnv 1 helloReq _ "x" (by rfl)⟩

/-- **C8, counterexample.**  The claim demands that *every* polling
loop treat each of `failed`/`cancelled`/`expired` as terminal.  The
vector-store file-processing loop checks only `completed` and `failed`;
on observing `cancelled` it keeps polling (and a constant `cancelled`
status stream never terminates it, here shown for 50 polls). -/
theorem C8_counterexample :
    vsFileStep "cancelled" = .keepPolling ∧
    vsFileStep "expired" = .keepPolling ∧
    pollLoop vsFileStep 50 (fun _ => "cancelled") = none := by
  refine ⟨by decide, by decide, by rfl⟩

/-- The vector-store file loop keeps polling forever on a constant
`cancelled` status. -/
theorem pollLoop_vsFile_cancelled (fuel : Nat) :
    pollLoop vsFileStep fuel (fun _ => "cancelled") = none := by
  induction fuel with
  | zero => rfl
  | succ n ih =>
    show pollLoop vsFileStep n (fun i => "cancelled") = none
    exact ih

/-- **C8, amended.**  The run-status loop satisfies the claim: it
stops with success exactly on `completed` and with a terminal failure
exactly on `failed`/`cancelled`/`expired` (stopping at the first such
observation).  The file-processing loop treats only `completed` and
`failed` as terminal: it keeps polling on `cancelled` or `expired`,
indefinitely if that status persists. -/
theorem C8_amended :
    (∀ s, runStep s = .success ↔ s = "completed") ∧
    (∀ s, (∃ m, runStep s = .failure m) ↔
      (s = "failed" ∨ s = "cancelled" ∨ s = "expired")) ∧
    (∀ s, vsFileStep s = .success ↔ s = "completed") ∧
    (∀ s, (∃ m, vsFileStep s = .failure m) ↔ s = "failed") ∧
    (∀ fuel statuses, statuses 0 = "failed" ∨ statuses 0 = "cancelled" ∨ statuses 0 = "expired" →
      pollLoop runStep (fuel + 1) statuses =
        some (.error ("Run failed with status: " ++ statuses 0))) ∧
    (∀ fuel, pollLoop vsFileStep fuel (fun _ => "cancelled") = none) := by
  refine ⟨?_, ?_, ?_, ?_, ?_, pollLoop_vsFile_cancelled⟩
  · intro s
    unfold runStep
    split_ifs <;> simp_all
  · intro s
    unfold runStep
    split_ifs with h1 h2 <;> simp_all
  · intro s
    unfold vsFileStep
    split_ifs <;> simp_all
  · intro s
    unfold vsFileStep
    split_ifs <;> simp_all
  · intro fuel statuses h
    show (match runStep (statuses 0) with
      | .success => some (.ok ())
      | .failure m => some (.error m)
      | .keepPolling => pollLoop runStep fuel (fun i => statuses (i + 1))) =
      some (.error ("Run failed with status: " ++ statuses 0))
    have hr : runStep (statuses 0) = .failure ("Run failed with status: " ++ statuses 0) := by
      unfold runStep
      rcases h with h | h | h <;> rw [h] <;> rfl
    rw [hr]

/-- Witness for `C8_amended`: one observation of `expired` stops the
run loop with the corresponding terminal error. -/
theorem C8_amended_witness :
    pollLoop runStep 1 (fun _ => "expired") =
      some (.error ("Run failed with status: " ++ "expired")) :=
  C8_amended.2.2.2.2.1 0 (fun _ => "expired") (by decide)

/-- **C9, counterexample.**  Teardown is *not* performed on every exit
path, and a cleanup failure *does* mask the result: (i) when the run
polling reports `failed`, `parse_with_assistant` raises before the
cleanup block, deleting nothing; (ii) when the work succeeds but
deleting the assistant raises, the retrieved result is replaced by the
cleanup error (and the other two resources are not deleted either). -/
theorem C9_counterexample :
    (parse_with_assistant runFailedEnv 1).cleaned = [] ∧
    (parse_with_assistant runFailedEnv 1).result =
      some (.error "Run failed with status: failed") ∧
    (parse_with_assistant cleanupFailEnv 1).result =
      some (.error "delete assistant: connection reset") ∧
    (parse_with_assistant cleanupFailEnv 1).cleaned = [] := by
  refine ⟨by rfl, by rfl, by rfl, by rfl⟩

/-- **C9, amended.**  The three provider-side resources are deleted
only on the fully successful path: after any polling failure or a
missing assistant message nothing is deleted, and when every step and
every deletion succeeds all three resources are deleted (in the order
assistant, vector store, file) and the message content is returned.  A
failing deletion raises: the original result is replaced by the cleanup
error and the remaining deletions are skipped. -/
theorem C9_amended :
    (∀ env fuel m, pollLoop vsFileStep fuel env.vsStatuses = some (.error m) →
      parse_with_assistant env fuel = ⟨some (.error m), []⟩) ∧
    (∀ env fuel m, pollLoop vsFileStep fuel env.vsStatuses = some (.ok ()) →
      pollLoop runStep fuel env.runStatuses = some (.error m) →
      parse_with_assistant env fuel = ⟨some (.error m), []⟩) ∧
    (∀ env fuel, pollLoop vsFileStep fuel env.vsStatuses = some (.ok ()) →
      pollLoop runStep fuel env.runStatuses = some (.ok ()) →
      env.messages.find? (fun m => m.1 = "assistant") = none →
      parse_with_assistant env fuel = ⟨some (.error "No response from assistant"), []⟩) ∧
    (∀ env fuel msg, pollLoop vsFileStep fuel env.vsStatuses = some (.ok ()) →
      pollLoop runStep fuel env.runStatuses = some (.ok ()) →
      env.messages.find? (fun m => m.1 = "assistant") = some msg →
      env.delAssistant = .ok () → env.delVectorStore = .ok () → env.delFile = .ok () →
      parse_with_assistant env fuel =
        ⟨some (.ok msg.2), ["assistant", "vector_store", "file"]⟩) ∧
    (∀ env fuel msg e, pollLoop vsFileStep fuel env.vsStatuses = some (.ok ()) →
      pollLoop runStep fuel env.runStatuses = some (.ok ()) →
      env.messages.find? (fun m => m.1 = "assistant") = some msg →
      env.delAssistant = .error e →
      parse_with_assistant env fuel = ⟨some (.error e), []⟩) := by
  refine ⟨?_, ?_, ?_, ?_, ?_⟩
  · intro env fuel m h
    unfold parse_with_assistant
    rw [h]
  · intro env fuel m h1 h2
    unfold parse_with_assistant
    rw [h1, h2]
  · intro env fuel h1 h2 h3
    unfold parse_with_assistant
    rw [h1, h2, h3]
  · intro env fuel msg h1 h2 h3 h4 h5 h6
    unfold parse_with_assistant
    rw [h1, h2, h3, h4, h5, h6]
  · intro env fuel msg e h1 h2 h3 h4
    unfold parse_with_assistant
    rw [h1, h2, h3, h4]

/-- Witness for `C9_amended`: the fully successful path deletes all
three resources and returns the assistant message content. -/
theorem C9_amended_witness :
    parse_with_assistant (happyEnv "\x7b\x7d") 1 =
      ⟨some (.ok "\x7b\x7d"), ["assistant", "vector_store", "file"]⟩ :=
  C9_amended.2.2.2.1 (happyEnv "\x7b\x7d") 1 ("assistant", "\x7b\x7d")
    (by rfl) (by rfl) (by rfl) (by rfl) (by rfl) (by rfl)

theorem hasSpacePunct_cons (c1 c2 : Char) (rest : List Char) :
    hasSpacePunct (c1 :: c2 :: rest) =
      ((pyIsSpace c1 && (c2 = ',' || c2 = '.')) || hasSpacePunct (c2 :: rest)) := rfl

theorem hasWsRun_cons (c1 c2 : Char) (rest : List Char) :
    hasWsRun (c1 :: c2 :: rest) =
      ((pyIsSpace c1 && pyIsSpace c2) || hasWsRun (c2 :: rest)) := rfl

theorem hasHttp_cons (c : Char) (rest : List Char) :
    hasHttp (c :: rest) =
      ((decide (c = 'h') && decide (rest.take 3 = ['t', 't', 'p'])) || hasHttp rest) := rfl

theorem hasSpacePunct_tail {c : Char} {rest : List Char}
    (h : hasSpacePunct (c :: rest) = false) : hasSpacePunct rest = false := by
  cases rest with
  | nil => rfl
  | cons c2 r =>
    rw [hasSpacePunct_cons] at h
    exact (Bool.or_eq_false_iff.mp h).2

theorem hasWsRun_tail {c : Char} {rest : List Char}
    (h : hasWsRun (c :: rest) = false) : hasWsRun rest = false := by
  cases rest with
  | nil => rfl
  | cons c2 r =>
    rw [hasWsRun_cons] at h
    exact (Bool.or_eq_false_iff.mp h).2

theorem hasHttp_tail {c : Char} {rest : List Char}
    (h : hasHttp (c :: rest) = false) : hasHttp rest = false := by
  rw [hasHttp_cons] at h
  exact (Bool.or_eq_false_iff.mp h).2

theorem hasSpacePunct_append_right {A r : List Char}
    (h : hasSpacePunct (A ++ r) = false) : hasSpacePunct r = false := by
  induction A with
  | nil => exact h
  | cons a A ih => exact ih (hasSpacePunct_tail h)

theorem hasWsRun_append_right {A r : List Char}
    (h : hasWsRun (A ++ r) = false) : hasWsRun r = false := by
  induction A with
  | nil => exact h
  | cons a A ih => exact ih (hasWsRun_tail h)

theorem hasHttp_append_right {A r : List Char}
    (h : hasHttp (A ++ r) = false) : hasHttp r = false := by
  induction A with
  | nil => exact h
  | cons a A ih => exact ih (hasHttp_tail h)

theorem hasSpacePunct_append_left :
    ∀ {l B : List Char}, hasSpacePunct (l ++ B) = false → hasSpacePunct l = false := by
  intro l
  induction l with
  | nil => intro B h; rfl
  | cons c rest ih =>
    intro B h
    cases rest with
    | nil => rfl
    | cons c2 r =>
      rw [show (c :: c2 :: r) ++ B = c :: c2 :: (r ++ B) from rfl,
        hasSpacePunct_cons] at h
      have h2 := Bool.or_eq_false_iff.mp h
      rw [hasSpacePunct_cons]
      exact Bool.or_eq_false_iff.mpr ⟨h2.1, ih h2.2⟩

theorem hasWsRun_append_left :
    ∀ {l B : List Char}, hasWsRun (l ++ B) = false → hasWsRun l = false := by
  intro l
  induction l with
  | nil => intro B h; rfl
  | cons c rest ih =>
    intro B h
    cases rest with
    | nil => rfl
    | cons c2 r =>
      rw [show (c :: c2 :: r) ++ B = c :: c2 :: (r ++ B) from rfl,
        hasWsRun_cons] at h
      have h2 := Bool.or_eq_false_iff.mp h
      rw [hasWsRun_cons]
      exact Bool.or_eq_false_iff.mpr ⟨h2.1, ih h2.2⟩

theorem take_append_stable {r B p : List Char} (h : r.take 3 = p) (hp : p.length = 3) :
    (r ++ B).take 3 = p := by
  have hlen : 3 ≤ r.length := by
    have := congrArg List.length h
    rw [List.length_take, hp] at this
    omega
  rw [List.take_append_of_le_length hlen, h]

theorem hasHttp_append_left :
    ∀ {l B : List Char}, hasHttp (l ++ B) = false → hasHttp l = false := by
  intro l
  induction l with
  | nil => intro B h; rfl
  | cons c rest ih =>
    intro B h
    rw [show (c :: rest) ++ B = c :: (rest ++ B) from rfl, hasHttp_cons] at h
    have h2 := Bool.or_eq_false_iff.mp h
    rw [hasHttp_cons]
    refine Bool.or_eq_false_iff.mpr ⟨?_, ih h2.2⟩
    by_cases hc : c = 'h'
    · by_cases ht : rest.take 3 = ['t', 't', 'p']
      · exfalso
        have : (rest ++ B).take 3 = ['t', 't', 'p'] := take_append_stable ht (by decide)
        rw [hc, this] at h2
        simp at h2
      · simp [ht]
    · simp [hc]

theorem pyStrip_decomp (l : List Char) :
    l = l.takeWhile pyIsSpace ++
      (pyStrip l ++ ((l.dropWhile pyIsSpace).reverse.takeWhile pyIsSpace).reverse) := by
  conv_lhs => rw [← List.takeWhile_append_dropWhile (p := pyIsSpace) (l := l)]
  congr 1
  conv_lhs =>
    rw [← List.reverse_reverse (l.dropWhile pyIsSpace),
      ← List.takeWhile_append_dropWhile (p := pyIsSpace)
        (l := (l.dropWhile pyIsSpace).reverse),
      List.reverse_append]
  rfl

theorem hasSpacePunct_pyStrip {l : List Char} (h : hasSpacePunct l = false) :
    hasSpacePunct (pyStrip l) = false := by
  rw [pyStrip_decomp l] at h
  exact hasSpacePunct_append_left (hasSpacePunct_append_right h)

theorem hasWsRun_pyStrip {l : List Char} (h : hasWsRun l = false) :
    hasWsRun (pyStrip l) = false := by
  rw [pyStrip_decomp l] at h
  exact hasWsRun_append_left (hasWsRun_append_right h)

theorem hasHttp_pyStrip {l : List Char} (h : hasHttp l = false) :
    hasHttp (pyStrip l) = false := by
  rw [pyStrip_decomp l] at h
  exact hasHttp_append_left (hasHttp_append_right h)

theorem pyIsSpace_wsChar (c : Char) : pyIsSpace (wsChar c) = pyIsSpace c := by
  unfold wsChar
  split_ifs with h
  · rw [h]; rfl
  · rfl

theorem wsChar_eq_self {c : Char} (h : pyIsSpace c = false) : wsChar c = c := by
  unfold wsChar
  rw [h]
  rfl

theorem head?_collapseNewlines (l : List Char) :
    (collapseNewlines l).head? = l.head? := by
  induction l using collapseNewlines.induct with
  | case1 => rfl
  | case2 c => rfl
  | case3 c1 c2 rest h ih =>
    rw [show collapseNewlines (c1 :: c2 :: rest) = collapseNewlines (c2 :: rest) by
      simp [collapseNewlines, h]]
    rw [ih]
    simp [h.1, h.2]
  | case4 c1 c2 rest h ih =>
    rw [show collapseNewlines (c1 :: c2 :: rest) = c1 :: collapseNewlines (c2 :: rest) by
      simp [collapseNewlines, h]]
    rfl

theorem head?_collapseSpaces (l : List Char) :
    (collapseSpaces l).head? = l.head?.map wsChar := by
  induction l using collapseSpaces.induct with
  | case1 => rfl
  | case2 c => rfl
  | case3 c1 c2 rest h ih =>
    rw [show collapseSpaces (c1 :: c2 :: rest) = collapseSpaces (c2 :: rest) by
      simp [collapseSpaces, h]]
    rw [ih]
    show some (wsChar c2) = some (wsChar c1)
    rw [show wsChar c1 = ' ' by unfold wsChar; rw [h.1]; rfl,
      show wsChar c2 = ' ' by unfold wsChar; rw [h.2]; rfl]
  | case4 c1 c2 rest h ih =>
    rw [show collapseSpaces (c1 :: c2 :: rest) =
        wsChar c1 :: collapseSpaces (c2 :: rest) by
      simp [collapseSpaces, wsChar, h]]
    rfl

theorem subSpacePunct_eq_self :
    ∀ l : List Char, hasSpacePunct l = false → subSpacePunct l = l := by
  intro l
  induction l using subSpacePunct.induct with
  | case1 => intro; rfl
  | case2 c => intro; rfl
  | case3 c1 c2 rest h ih =>
    intro hl
    exfalso
    rw [hasSpacePunct_cons] at hl
    have := (Bool.or_eq_false_iff.mp hl).1
    rw [h.1] at this
    rcases h.2 with h2 | h2 <;> rw [h2] at this <;> simp at this
  | case4 c1 c2 rest h ih =>
    intro hl
    rw [show subSpacePunct (c1 :: c2 :: rest) = c1 :: subSpacePunct (c2 :: rest) by
      simp [subSpacePunct, h]]
    rw [ih (hasSpacePunct_tail hl)]

theorem collapseNewlines_eq_self :
    ∀ l : List Char, (∀ c ∈ l, c ≠ '\n') → collapseNewlines l = l := by
  intro l
  induction l using collapseNewlines.induct with
  | case1 => intro; rfl
  | case2 c => intro; rfl
  | case3 c1 c2 rest h ih =>
    intro hl
    exact absurd h.1 (hl c1 (by simp))
  | case4 c1 c2 rest h ih =>
    intro hl
    rw [show collapseNewlines (c1 :: c2 :: rest) = c1 :: collapseNewlines (c2 :: rest) by
      simp [collapseNewlines, h]]
    rw [ih (fun c hc => hl c (by simp [hc]))]

theorem collapseSpaces_eq_self :
    ∀ l : List Char, hasWsRun l = false →
      (∀ c ∈ l, pyIsSpace c = true → c = ' ') → collapseSpaces l = l := by
  intro l
  induction l using collapseSpaces.induct with
  | case1 => intro _ _; rfl
  | case2 c =>
    intro _ hsp
    show [if pyIsSpace c then ' ' else c] = [c]
    split_ifs with h
    · rw [hsp c (by simp) h]
    · rfl
  | case3 c1 c2 rest h ih =>
    intro hws _
    exfalso
    rw [hasWsRun_cons] at hws
    have := (Bool.or_eq_false_iff.mp hws).1
    rw [h.1, h.2] at this
    simp at this
  | case4 c1 c2 rest h ih =>
    intro hws hsp
    rw [show collapseSpaces (c1 :: c2 :: rest) =
        wsChar c1 :: collapseSpaces (c2 :: rest) by
      simp [collapseSpaces, wsChar, h]]
    rw [ih (hasWsRun_tail hws) (fun c hc hp => hsp c (by simp [hc]) hp)]
    congr 1
    unfold wsChar
    split_ifs with hc1
    · rw [hsp c1 (by simp) hc1]
    · rfl

theorem filterAscii_eq_self {l : List Char} (h : ∀ c ∈ l, c.toNat < 128) :
    filterAscii l = l :=
  List.filter_eq_self.mpr (fun a ha => by simpa using h a ha)

theorem stripHttpGo_eq_self :
    ∀ (fuel : Nat) (l : List Char), l.length ≤ fuel → hasHttp l = false →
      stripHttpGo fuel l = l := by
  intro fuel
  induction fuel with
  | zero => intro l _ _; cases l <;> rfl
  | succ n ih =>
    intro l hlen h
    cases l with
    | nil => rfl
    | cons c rest =>
      have h1 := (Bool.or_eq_false_iff.mp ((hasHttp_cons c rest) ▸ h)).1
      have hcond : ¬(c = 'h' ∧ rest.take 3 = ['t', 't', 'p']) := by
        rintro ⟨hc, ht⟩
        rw [hc, ht] at h1
        simp at h1
      show (if c = 'h' ∧ rest.take 3 = ['t', 't', 'p'] then
          stripHttpGo n (dropSlashes (dropS (rest.drop 3)))
        else c :: stripHttpGo n rest) = c :: rest
      rw [if_neg hcond,
        ih rest (by simp [List.length_cons] at hlen; omega) (hasHttp_tail h)]

theorem stripHttp_eq_self {l : List Char} (h : hasHttp l = false) : stripHttp l = l :=
  stripHttpGo_eq_self l.length l le_rfl h

theorem collapseNewlines_pres_spacePunct :
    ∀ l : List Char, hasSpacePunct l = false →
      hasSpacePunct (collapseNewlines l) = false := by
  intro l
  induction l using collapseNewlines.induct with
  | case1 => intro; rfl
  | case2 c => intro; rfl
  | case3 c1 c2 rest h ih =>
    intro hl
    rw [show collapseNewlines (c1 :: c2 :: rest) = collapseNewlines (c2 :: rest) by
      simp [collapseNewlines, h]]
    exact ih (hasSpacePunct_tail hl)
  | case4 c1 c2 rest h ih =>
    intro hl
    rw [show collapseNewlines (c1 :: c2 :: rest) = c1 :: collapseNewlines (c2 :: rest) by
      simp [collapseNewlines, h]]
    have hw := head?_collapseNewlines (c2 :: rest)
    cases hcn : collapseNewlines (c2 :: rest) with
    | nil => rfl
    | cons d w =>
      rw [hcn] at hw
      have hd : d = c2 := by
        simpa using hw
      rw [hasSpacePunct_cons]
      have h2 := Bool.or_eq_false_iff.mp ((hasSpacePunct_cons c1 c2 rest) ▸ hl)
      refine Bool.or_eq_false_iff.mpr ⟨by rw [hd]; exact h2.1, ?_⟩
      have h3 := ih (hasSpacePunct_tail hl)
      rwa [hcn] at h3

theorem collapseSpaces_pres_spacePunct :
    ∀ l : List Char, hasSpacePunct l = false →
      hasSpacePunct (collapseSpaces l) = false := by
  intro l
  induction l using collapseSpaces.induct with
  | case1 => intro; rfl
  | case2 c => intro; rfl
  | case3 c1 c2 rest h ih =>
    intro hl
    rw [show collapseSpaces (c1 :: c2 :: rest) = collapseSpaces (c2 :: rest) by
      simp [collapseSpaces, h]]
    exact ih (hasSpacePunct_tail hl)
  | case4 c1 c2 rest h ih =>
    intro hl
    rw [show collapseSpaces (c1 :: c2 :: rest) =
        wsChar c1 :: collapseSpaces (c2 :: rest) by
      simp [collapseSpaces, wsChar, h]]
    have hw := head?_collapseSpaces (c2 :: rest)
    cases hcw : collapseSpaces (c2 :: rest) with
    | nil => rfl
    | cons d w =>
      rw [hcw] at hw
      have hd : d = wsChar c2 := by
        simpa using hw
      subst hd
      rw [hasSpacePunct_cons]
      have h2 := Bool.or_eq_false_iff.mp ((hasSpacePunct_cons c1 c2 rest) ▸ hl)
      refine Bool.or_eq_false_iff.mpr ⟨?_, ?_⟩
      · rw [pyIsSpace_wsChar]
        rcases hsp1 : pyIsSpace c1 with _ | _
        · simp
        · have hpunct : (c2 = ',' || c2 = '.') = false := by
            have := h2.1
            rw [hsp1] at this
            simpa using this
          unfold wsChar
          split_ifs with hc2
          · simp
          · rw [hpunct]
            simp
      · have := ih (hasSpacePunct_tail hl)
        rwa [hcw] at this

theorem collapseNewlines_take :
    ∀ (l p : List Char), (∀ c ∈ p, c ≠ '\n') →
      (collapseNewlines l).take p.length = p → l.take p.length = p := by
  intro l
  induction l using collapseNewlines.induct with
  | case1 =>
    intro p _ h
    rw [show collapseNewlines [] = [] from rfl, List.take_nil] at h
    subst h
    rfl
  | case2 c => intro p _ h; exact h
  | case3 c1 c2 rest hc ih =>
    intro p hp h
    rw [show collapseNewlines (c1 :: c2 :: rest) = collapseNewlines (c2 :: rest) by
      simp [collapseNewlines, hc]] at h
    have h2 := ih p hp h
    cases p with
    | nil => rfl
    | cons d p2 =>
      exfalso
      rw [show (c2 :: rest).take (d :: p2).length = c2 :: rest.take p2.length from rfl] at h2
      have : c2 = d := (List.cons.injEq _ _ _ _ ▸ h2).1
      exact hp d (by simp) (by rw [← this, hc.2])
  | case4 c1 c2 rest hc ih =>
    intro p hp h
    rw [show collapseNewlines (c1 :: c2 :: rest) = c1 :: collapseNewlines (c2 :: rest) by
      simp [collapseNewlines, hc]] at h
    cases p with
    | nil => rfl
    | cons d p2 =>
      rw [show (c1 :: collapseNewlines (c2 :: rest)).take (d :: p2).length =
          c1 :: (collapseNewlines (c2 :: rest)).take p2.length from rfl] at h
      have h2 := List.cons.injEq _ _ _ _ ▸ h
      have h3 := ih p2 (fun c hc2 => hp c (by simp [hc2])) h2.2
      show c1 :: (c2 :: rest).take p2.length = d :: p2
      rw [h2.1, h3]

theorem collapseSpaces_take :
    ∀ (l p : List Char), (∀ c ∈ p, pyIsSpace c = false) →
      (collapseSpaces l).take p.length = p → l.take p.length = p := by
  intro l
  induction l using collapseSpaces.induct with
  | case1 =>
    intro p _ h
    rw [show collapseSpaces [] = [] from rfl, List.take_nil] at h
    subst h
    rfl
  | case2 c =>
    intro p hp h
    rw [show collapseSpaces [c] = [wsChar c] from rfl] at h
    cases p with
    | nil => rfl
    | cons d p2 =>
      cases p2 with
      | nil =>
        have hd : wsChar c = d := by
          simpa using h
        have hdns : pyIsSpace d = false := hp d (by simp)
        have hcns : pyIsSpace c = false := by
          rw [← pyIsSpace_wsChar, hd, hdns]
        show [c].take 1 = [d]
        rw [show [c].take 1 = [c] from rfl, ← hd, wsChar_eq_self hcns]
      | cons d2 p3 =>
        exfalso
        have := congrArg List.length h
        simp [List.length_take] at this
  | case3 c1 c2 rest hc ih =>
    intro p hp h
    rw [show collapseSpaces (c1 :: c2 :: rest) = collapseSpaces (c2 :: rest) by
      simp [collapseSpaces, hc]] at h
    have h2 := ih p hp h
    cases p with
    | nil => rfl
    | cons d p2 =>
      exfalso
      rw [show (c2 :: rest).take (d :: p2).length = c2 :: rest.take p2.length from rfl] at h2
      have hcd : c2 = d := (List.cons.injEq _ _ _ _ ▸ h2).1
      have hdns : pyIsSpace d = false := hp d (by simp)
      rw [hcd] at hc
      exact absurd hc.2 (by simp [hdns])
  | case4 c1 c2 rest hc ih =>
    intro p hp h
    rw [show collapseSpaces (c1 :: c2 :: rest) =
        wsChar c1 :: collapseSpaces (c2 :: rest) by
      simp [collapseSpaces, wsChar, hc]] at h
    cases p with
    | nil => rfl
    | cons d p2 =>
      rw [show (wsChar c1 :: collapseSpaces (c2 :: rest)).take (d :: p2).length =
          wsChar c1 :: (collapseSpaces (c2 :: rest)).take p2.length from rfl] at h
      have h2 := List.cons.injEq _ _ _ _ ▸ h
      have hdns : pyIsSpace d = false := hp d (by simp)
      have hc1ns : pyIsSpace c1 = false := by
        rw [← pyIsSpace_wsChar, h2.1, hdns]
      have h3 := ih p2 (fun c hc2 => hp c (by simp [hc2])) h2.2
      show c1 :: (c2 :: rest).take p2.length = d :: p2
      rw [← h2.1, wsChar_eq_self hc1ns, h3]

theorem collapseNewlines_pres_http :
    ∀ l : List Char, hasHttp (collapseNewlines l) = true → hasHttp l = true := by
  intro l
  induction l using collapseNewlines.induct with
  | case1 => intro h; exact absurd h (by decide)
  | case2 c => intro h; exact h
  | case3 c1 c2 rest hc ih =>
    intro h
    rw [show collapseNewlines (c1 :: c2 :: rest) = collapseNewlines (c2 :: rest) by
      simp [collapseNewlines, hc]] at h
    rw [hasHttp_cons]
    simp [ih h]
  | case4 c1 c2 rest hc ih =>
    intro h
    rw [show collapseNewlines (c1 :: c2 :: rest) = c1 :: collapseNewlines (c2 :: rest) by
      simp [collapseNewlines, hc], hasHttp_cons] at h
    rcases Bool.or_eq_true_iff.mp h with h1 | h1
    · have hb := Bool.and_eq_true_iff.mp h1
      have hc1 : c1 = 'h' := of_decide_eq_true hb.1
      have htake : (collapseNewlines (c2 :: rest)).take 3 = ['t', 't', 'p'] :=
        of_decide_eq_true hb.2
      have h3 : (c2 :: rest).take 3 = ['t', 't', 'p'] := by
        have := collapseNewlines_take (c2 :: rest) ['t', 't', 'p'] (by decide)
        exact this htake
      rw [hasHttp_cons, hc1, h3]
      simp
    · rw [hasHttp_cons]
      simp [ih h1]

theorem collapseSpaces_pres_http :
    ∀ l : List Char, hasHttp (collapseSpaces l) = true → hasHttp l = true := by
  intro l
  induction l using collapseSpaces.induct with
  | case1 => intro h; exact absurd h (by decide)
  | case2 c =>
    intro h
    rw [show collapseSpaces [c] = [wsChar c] from rfl, hasHttp_cons] at h
    rcases Bool.or_eq_true_iff.mp h with h1 | h1
    · have hb := Bool.and_eq_true_iff.mp h1
      have := of_decide_eq_true hb.2
      simp [List.take_nil] at this
    · exact absurd h1 (by decide)
  | case3 c1 c2 rest hc ih =>
    intro h
    rw [show collapseSpaces (c1 :: c2 :: rest) = collapseSpaces (c2 :: rest) by
      simp [collapseSpaces, hc]] at h
    rw [hasHttp_cons]
    simp [ih h]
  | case4 c1 c2 rest hc ih =>
    intro h
    rw [show collapseSpaces (c1 :: c2 :: rest) =
        wsChar c1 :: collapseSpaces (c2 :: rest) by
      simp [collapseSpaces, wsChar, hc], hasHttp_cons] at h
    rcases Bool.or_eq_true_iff.mp h with h1 | h1
    · have hb := Bool.and_eq_true_iff.mp h1
      have hc1w : wsChar c1 = 'h' := of_decide_eq_true hb.1
      have hc1ns : pyIsSpace c1 = false := by
        rw [← pyIsSpace_wsChar, hc1w]
        rfl
      have hc1 : c1 = 'h' := by
        rw [← wsChar_eq_self hc1ns, hc1w]
      have htake : (collapseSpaces (c2 :: rest)).take 3 = ['t', 't', 'p'] :=
        of_decide_eq_true hb.2
      have h3 : (c2 :: rest).take 3 = ['t', 't', 'p'] :=
        collapseSpaces_take (c2 :: rest) ['t', 't', 'p'] (by decide) htake
      rw [hasHttp_cons, hc1, h3]
      simp
    · rw [hasHttp_cons]
      simp [ih h1]

theorem collapseSpaces_no_wsRun (l : List Char) :
    hasWsRun (collapseSpaces l) = false := by
  induction l using collapseSpaces.induct with
  | case1 => rfl
  | case2 c => rfl
  | case3 c1 c2 rest hc ih =>
    rw [show collapseSpaces (c1 :: c2 :: rest) = collapseSpaces (c2 :: rest) by
      simp [collapseSpaces, hc]]
    exact ih
  | case4 c1 c2 rest hc ih =>
    rw [show collapseSpaces (c1 :: c2 :: rest) =
        wsChar c1 :: collapseSpaces (c2 :: rest) by
      simp [collapseSpaces, wsChar, hc]]
    have hw := head?_collapseSpaces (c2 :: rest)
    cases hcw : collapseSpaces (c2 :: rest) with
    | nil => rfl
    | cons d w =>
      rw [hcw] at hw
      have hd : d = wsChar c2 := by
        simpa using hw
      rw [hasWsRun_cons]
      refine Bool.or_eq_false_iff.mpr ⟨?_, by rw [← hcw]; exact ih⟩
      rw [hd, pyIsSpace_wsChar, pyIsSpace_wsChar]
      rcases h1 : pyIsSpace c1 with _ | _
      · simp
      · rcases h2 : pyIsSpace c2 with _ | _
        · simp
        · exact absurd ⟨h1, h2⟩ hc

theorem wsChar_space_eq {c : Char} (h : pyIsSpace (wsChar c) = true) : wsChar c = ' ' := by
  have h2 : pyIsSpace c = true := by
    rw [← pyIsSpace_wsChar]
    exact h
  unfold wsChar
  rw [if_pos h2]

theorem collapseSpaces_space_eq (l : List Char) :
    ∀ c ∈ collapseSpaces l, pyIsSpace c = true → c = ' ' := by
  induction l using collapseSpaces.induct with
  | case1 =>
    intro c hc
    rw [show collapseSpaces [] = [] from rfl] at hc
    exact absurd hc (by simp)
  | case2 c0 =>
    intro c hc hsp
    rw [show collapseSpaces [c0] = [wsChar c0] from rfl] at hc
    rcases List.mem_singleton.mp hc with h
    rw [h] at hsp ⊢
    exact wsChar_space_eq hsp
  | case3 c1 c2 rest hc ih =>
    intro c hcm hsp
    rw [show collapseSpaces (c1 :: c2 :: rest) = collapseSpaces (c2 :: rest) by
      simp [collapseSpaces, hc]] at hcm
    exact ih c hcm hsp
  | case4 c1 c2 rest hc ih =>
    intro c hcm hsp
    rw [show collapseSpaces (c1 :: c2 :: rest) =
        wsChar c1 :: collapseSpaces (c2 :: rest) by
      simp [collapseSpaces, wsChar, hc]] at hcm
    rcases List.mem_cons.mp hcm with h | h
    · rw [h] at hsp ⊢
      exact wsChar_space_eq hsp
    · exact ih c h hsp

theorem mem_collapseNewlines {c : Char} :
    ∀ l : List Char, c ∈ collapseNewlines l → c ∈ l := by
  intro l
  induction l using collapseNewlines.induct with
  | case1 =>
    intro h
    rw [show collapseNewlines [] = [] from rfl] at h
    exact absurd h (by simp)
  | case2 c0 => intro h; exact h
  | case3 c1 c2 rest hc ih =>
    intro h
    rw [show collapseNewlines (c1 :: c2 :: rest) = collapseNewlines (c2 :: rest) by
      simp [collapseNewlines, hc]] at h
    exact List.mem_cons_of_mem c1 (ih h)
  | case4 c1 c2 rest hc ih =>
    intro h
    rw [show collapseNewlines (c1 :: c2 :: rest) = c1 :: collapseNewlines (c2 :: rest) by
      simp [collapseNewlines, hc]] at h
    rcases List.mem_cons.mp h with h1 | h1
    · rw [h1]; simp
    · exact List.mem_cons_of_mem c1 (ih h1)

theorem mem_collapseSpaces {c : Char} :
    ∀ l : List Char, c ∈ collapseSpaces l → c ∈ l ∨ c = ' ' := by
  intro l
  induction l using collapseSpaces.induct with
  | case1 =>
    intro h
    rw [show collapseSpaces [] = [] from rfl] at h
    exact absurd h (by simp)
  | case2 c0 =>
    intro h
    rw [show collapseSpaces [c0] = [wsChar c0] from rfl] at h
    rcases List.mem_singleton.mp h with h1
    unfold wsChar at h1
    split_ifs at h1
    · exact Or.inr h1
    · exact Or.inl (by rw [h1]; simp)
  | case3 c1 c2 rest hc ih =>
    intro h
    rw [show collapseSpaces (c1 :: c2 :: rest) = collapseSpaces (c2 :: rest) by
      simp [collapseSpaces, hc]] at h
    rcases ih h with h1 | h1
    · exact Or.inl (List.mem_cons_of_mem c1 h1)
    · exact Or.inr h1
  | case4 c1 c2 rest hc ih =>
    intro h
    rw [show collapseSpaces (c1 :: c2 :: rest) =
        wsChar c1 :: collapseSpaces (c2 :: rest) by
      simp [collapseSpaces, wsChar, hc]] at h
    rcases List.mem_cons.mp h with h1 | h1
    · unfold wsChar at h1
      split_ifs at h1
      · exact Or.inr h1
      · exact Or.inl (by rw [h1]; simp)
    · rcases ih h1 with h2 | h2
      · exact Or.inl (List.mem_cons_of_mem c1 h2)
      · exact Or.inr h2

/-- On a string with no whitespace-before-punctuation pair, no
whitespace run, only plain spaces as whitespace, no newline, no `http`
and no non-ASCII character, every pass of the normalizer is the
identity. -/
theorem cleanSubsL_fixedpoint {l : List Char}
    (hsp : hasSpacePunct l = false) (hws : hasWsRun l = false)
    (hspc : ∀ c ∈ l, pyIsSpace c = true → c = ' ')
    (hnl : ∀ c ∈ l, c ≠ '\n')
    (hhttp : hasHttp l = false) (hascii : ∀ c ∈ l, c.toNat < 128) :
    cleanSubsL l = l := by
  unfold cleanSubsL
  rw [subSpacePunct_eq_self l hsp, collapseNewlines_eq_self l hnl,
    collapseSpaces_eq_self l hws hspc, stripHttp_eq_self hhttp,
    filterAscii_eq_self hascii]

/-- On ASCII input with no whitespace-before-punctuation pair and no
`http` occurrence, the output of the five substitution passes satisfies
all six fixed-point conditions. -/
theorem cleanSubsL_props {l : List Char}
    (h1 : hasSpacePunct l = false) (h2 : hasHttp l = false)
    (h3 : ∀ c ∈ l, c.toNat < 128) :
    hasSpacePunct (cleanSubsL l) = false ∧ hasWsRun (cleanSubsL l) = false ∧
    (∀ c ∈ cleanSubsL l, pyIsSpace c = true → c = ' ') ∧
    (∀ c ∈ cleanSubsL l, c ≠ '\n') ∧
    hasHttp (cleanSubsL l) = false ∧ (∀ c ∈ cleanSubsL l, c.toNat < 128) := by
  have e1 : subSpacePunct l = l := subSpacePunct_eq_self l h1
  have hb_sp : hasSpacePunct (collapseSpaces (collapseNewlines l)) = false :=
    collapseSpaces_pres_spacePunct _ (collapseNewlines_pres_spacePunct l h1)
  have hb_http : hasHttp (collapseSpaces (collapseNewlines l)) = false := by
    rcases hx : hasHttp (collapseSpaces (collapseNewlines l)) with _ | _
    · rfl
    · exfalso
      have hcontra := collapseNewlines_pres_http l (collapseSpaces_pres_http _ hx)
      rw [h2] at hcontra
      exact Bool.false_ne_true hcontra
  have hb_ws : hasWsRun (collapseSpaces (collapseNewlines l)) = false :=
    collapseSpaces_no_wsRun _
  have hb_spc : ∀ c ∈ collapseSpaces (collapseNewlines l), pyIsSpace c = true → c = ' ' :=
    collapseSpaces_space_eq _
  have hb_nl : ∀ c ∈ collapseSpaces (collapseNewlines l), c ≠ '\n' := by
    intro c hc hne
    have hcs : c = ' ' := hb_spc c hc (by rw [hne]; decide)
    rw [hcs] at hne
    exact absurd hne (by decide)
  have hb_ascii : ∀ c ∈ collapseSpaces (collapseNewlines l), c.toNat < 128 := by
    intro c hc
    rcases mem_collapseSpaces (collapseNewlines l) hc with h | h
    · exact h3 c (mem_collapseNewlines l h)
    · rw [h]; decide
  have hcs : cleanSubsL l = collapseSpaces (collapseNewlines l) := by
    unfold cleanSubsL
    rw [e1, stripHttp_eq_self hb_http, filterAscii_eq_self hb_ascii]
  rw [hcs]
  exact ⟨hb_sp, hb_ws, hb_spc, hb_nl, hb_http, hb_ascii⟩

/-- **C2, counterexample.**  The normalizer is not idempotent: on
`"a  ,b"` the first pass rewrites the second space plus comma to a
comma, leaving a *new* space-before-comma pair that only a second
application rewrites, so `clean_text (clean_text x) ≠ clean_text x`. -/
theorem C2_counterexample :
    clean_text "a  ,b" = "a ,b" ∧
    clean_text (clean_text "a  ,b") = "a,b" ∧
    clean_text (clean_text "a  ,b") ≠ clean_text "a  ,b" := by
  refine ⟨by rfl, by rfl, by decide⟩

/-- Idempotence of the five passes plus strip at the list level. -/
theorem cleanTextL_idem {l : List Char}
    (h1 : hasSpacePunct l = false) (h2 : hasHttp l = false)
    (h3 : ∀ c ∈ l, c.toNat < 128) :
    cleanTextL (cleanTextL l) = cleanTextL l := by
  obtain ⟨p1, p2, p3, p4, p5, p6⟩ := cleanSubsL_props h1 h2 h3
  unfold cleanTextL
  rw [cleanSubsL_fixedpoint (hasSpacePunct_pyStrip p1) (hasWsRun_pyStrip p2)
    (fun c hc => p3 c (mem_of_pyStrip hc)) (fun c hc => p4 c (mem_of_pyStrip hc))
    (hasHttp_pyStrip p5) (fun c hc => p6 c (mem_of_pyStrip hc)), pyStrip_idem]

/-- Idempotence of the five passes alone at the list level. -/
theorem cleanSubsL_idem {l : List Char}
    (h1 : hasSpacePunct l = false) (h2 : hasHttp l = false)
    (h3 : ∀ c ∈ l, c.toNat < 128) :
    cleanSubsL (cleanSubsL l) = cleanSubsL l := by
  obtain ⟨p1, p2, p3, p4, p5, p6⟩ := cleanSubsL_props h1 h2 h3
  exact cleanSubsL_fixedpoint p1 p2 p3 p4 p5 p6

/-- One-step unfolding of `clean_text`. -/
theorem clean_text_unfold (s : String) :
    clean_text s = String.mk (cleanTextL s.data) := rfl

/-- The character list underlying `clean_text`. -/
theorem clean_text_data (s : String) : (clean_text s).data = cleanTextL s.data := rfl

/-- One-step unfolding of the strip-free inline normalizer. -/
theorem cleanSubsStr_unfold (s : String) :
    cleanSubsStr s = String.mk (cleanSubsL s.data) := rfl

/-- The character list underlying the inline normalizer. -/
theorem cleanSubsStr_data (s : String) :
    (cleanSubsStr s).data = cleanSubsL s.data := rfl

/-- **C2, amended.**  `clean_text` (and the strip-free inline
normalizer of `openai_parser`) is idempotent on every input that
contains no whitespace character immediately followed by `,` or `.`,
no occurrence of `http`, and no character outside the 7-bit ASCII
range.  (The general claim fails: the counterexample shows pass 1 can
create a new match for itself, and deletions by passes 4–5 can create
new whitespace runs for passes 1–3.) -/
theorem C2_amended (x : String)
    (h1 : hasSpacePunct x.data = false) (h2 : hasHttp x.data = false)
    (h3 : ∀ c ∈ x.data, c.toNat < 128) :
    clean_text (clean_text x) = clean_text x ∧
    cleanSubsStr (cleanSubsStr x) = cleanSubsStr x := by
  constructor
  · rw [clean_text_unfold (clean_text x), clean_text_data, clean_text_unfold x]
    exact congrArg String.mk (cleanTextL_idem h1 h2 h3)
  · rw [cleanSubsStr_unfold (cleanSubsStr x), cleanSubsStr_data, cleanSubsStr_unfold x]
    exact congrArg String.mk (cleanSubsL_idem h1 h2 h3)

/-- Witness for `C2_amended` on a realistic ASCII line. -/
theorem C2_amended_witness :
    hasSpacePunct "John Smith, Senior Engineer".data = false ∧
    hasHttp "John Smith, Senior Engineer".data = false ∧
    clean_text (clean_text "John Smith, Senior Engineer") =
      clean_text "John Smith, Senior Engineer" :=
  ⟨by decide, by decide,
    (C2_amended "John Smith, Senior Engineer" (by decide) (by decide) (by decide)).1⟩
